import Mathlib

/-!
Verification of the knowledge-pipeline file-ledger core.

This file shallowly embeds the Python source of the pipeline
(`src/discovery.py`, `src/state.py`, `src/models.py`, `src/uploader.py`,
`src/llm/gemini_cli.py`, `src/main.py`) into Lean and proves properties of
the embedded definitions.

Modelling conventions:
* Python `str` is modelled by `String`, and character-indexed operations
  (`str.find`, slicing, `str.strip`) are implemented over `List Char`,
  mirroring Python's character-based semantics.
* The YAML codec is modelled on the flat `key: value` scalar-mapping subset
  that the pipeline reads and writes for its ledger fields.  Scalars are
  classified as null / int / date / plain string like PyYAML's resolver for
  those cases.  Flow or block collections are outside the modelled universe;
  an unterminated flow bracket is a parse error (as in PyYAML), and a
  non-mapping line inside a mapping block is a parse error (as PyYAML raises
  for a bare scalar inside a block mapping).
* The filesystem is an association list from path to file content; the
  directory walk of `FileScanner.scan` is taken as the input list of
  (path, content) pairs.
* Fallible Python code is modelled with `Except`/`Option`; a Python
  dataclass keyword-argument constructor call is modelled by matching the
  supplied keyword names against the dataclass field names (a mismatch is a
  `TypeError`).
-/

namespace KnowledgePipeline

/-! ### Character-level string helpers (Python `str` semantics) -/

/-- Python `str.isspace`-style whitespace test used by `str.strip`. -/
def isWs (c : Char) : Bool :=
  c = ' ' || c = '\t' || c = '\n' || c = '\r'

/-- Drop leading whitespace. -/
def chDropWs (cs : List Char) : List Char :=
  cs.dropWhile isWs

/-- Python `str.strip`: drop leading and trailing whitespace. -/
def chTrim (cs : List Char) : List Char :=
  ((chDropWs cs).reverse.dropWhile isWs).reverse

/-- String-level Python `str.strip`. -/
def pyStrip (s : String) : String :=
  String.mk (chTrim s.toList)

/-- First index (character based) at which `pat` occurs in `cs`,
Python `str.find` returning `none` for `-1`. -/
def chFind (cs pat : List Char) : Option Nat :=
  match cs with
  | [] => if pat = [] then some 0 else none
  | _ :: rest =>
    if pat.isPrefixOf cs then some 0
    else (chFind rest pat).map (· + 1)

/-- Python `content.find(pat, start)` (character indices). -/
def pyFindFrom (s pat : String) (start : Nat) : Option Nat :=
  (chFind (s.toList.drop start) pat.toList).map (· + start)

/-- Python slice `s[a:b]` (character indices). -/
def pySlice (s : String) (a b : Nat) : String :=
  String.mk ((s.toList.drop a).take (b - a))

/-- Python slice `s[a:]` (character indices). -/
def pyDropChars (s : String) (a : Nat) : String :=
  String.mk (s.toList.drop a)

/-- Python `s[:k]` (character indices), used for modelling a write that was
interrupted after `k` characters. -/
def pyTakeChars (s : String) (k : Nat) : String :=
  String.mk (s.toList.take k)

/-- Python `pat in s` substring test. -/
def containsSub (s pat : String) : Bool :=
  (pyFindFrom s pat 0).isSome

/-- Python `s.startswith(pat)` (character based). -/
def pyStartsWith (s pat : String) : Bool :=
  pat.toList.isPrefixOf s.toList

/-- Python `s.endswith(pat)` (character based). -/
def pyEndsWith (s pat : String) : Bool :=
  pat.toList.isSuffixOf s.toList

/-- Python `s.lower()` (character based). -/
def pyLower (s : String) : String :=
  String.mk (s.toList.map Char.toLower)

/-- Split a character list at newline characters (Python `splitlines`-like
splitting used to feed the line-based YAML loader). -/
def chSplitNL (cs : List Char) : List (List Char) :=
  match cs with
  | [] => [[]]
  | c :: rest =>
    let r := chSplitNL rest
    if c = '\n' then [] :: r
    else
      match r with
      | [] => [[c]]
      | l :: ls => (c :: l) :: ls

/-- Decimal digit test. -/
def isDigitCh (c : Char) : Bool :=
  '0' ≤ c && c ≤ '9'

/-- Value of a decimal digit list (most significant first). -/
def natOfDigits (cs : List Char) : Nat :=
  cs.foldl (fun acc c => acc * 10 + (c.toNat - '0'.toNat)) 0

/-! ### YAML scalar model -/

/-- Scalar values of the modelled YAML subset.  PyYAML resolves `null`/empty
to `None`, integer literals to `int`, ISO dates to `datetime.date`, and
leaves other plain scalars as `str`. -/
inductive YamlValue where
  | str (s : String)
  | int (n : Int)
  | null
  | date (y m d : Nat)
deriving DecidableEq, Repr

/-- A parsed frontmatter mapping: insertion-ordered association list with
unique keys, modelling a Python `dict`. -/
abbrev Dict := List (String × YamlValue)

/-- Python `d.get(k)` (first binding; keys are unique by construction). -/
def dictGet (d : Dict) (k : String) : Option YamlValue :=
  (d.find? (fun p => p.1 = k)).map (·.2)

/-- Python `d[k] = v`: update in place if the key exists, else append. -/
def dictInsert : Dict → String → YamlValue → Dict
  | [], k, v => [(k, v)]
  | e :: d, k, v => if e.1 = k then (k, v) :: d else e :: dictInsert d k v

/-- Python `{**a, **b}`: keys of `a` keep their position (values updated
from `b`), new keys of `b` are appended in order. -/
def dictMerge (a b : Dict) : Dict :=
  b.foldl (fun acc p => dictInsert acc p.1 p.2) a

/-- Python truthiness of a YAML scalar (`if not status_str`). -/
def yamlTruthy : YamlValue → Bool
  | .str s => s ≠ ""
  | .int n => n ≠ 0
  | .null => false
  | .date _ _ _ => true

/-- Integer literal test (optional leading minus, then digits). -/
def isIntLit (cs : List Char) : Bool :=
  match cs with
  | '-' :: rest => rest ≠ [] && rest.all isDigitCh
  | _ => cs ≠ [] && cs.all isDigitCh

/-- Date literal test `YYYY-MM-DD`. -/
def isDateLit (cs : List Char) : Bool :=
  match cs with
  | [y1, y2, y3, y4, s1, m1, m2, s2, d1, d2] =>
    isDigitCh y1 && isDigitCh y2 && isDigitCh y3 && isDigitCh y4 &&
    s1 = '-' && isDigitCh m1 && isDigitCh m2 && s2 = '-' &&
    isDigitCh d1 && isDigitCh d2
  | _ => false

/-- Parse an integer literal. -/
def intOfLit (cs : List Char) : Int :=
  match cs with
  | '-' :: rest => - (natOfDigits rest : Int)
  | _ => (natOfDigits cs : Int)

/-- Classify a trimmed plain scalar the way PyYAML's resolver does for the
modelled subset. -/
def parseScalar (s : String) : YamlValue :=
  let cs := s.toList
  if s = "" || s = "null" || s = "~" then .null
  else if isIntLit cs then .int (intOfLit cs)
  else if isDateLit cs then
    .date (natOfDigits (cs.take 4)) (natOfDigits ((cs.drop 5).take 2))
      (natOfDigits ((cs.drop 8).take 2))
  else .str s

/-- Render a scalar the way `yaml.dump` prints it for the modelled subset. -/
def renderScalar : YamlValue → String
  | .str s => s
  | .int n => toString n
  | .null => "null"
  | .date y m d =>
    let pad2 := fun (n : Nat) => if n < 10 then "0" ++ toString n else toString n
    toString y ++ "-" ++ pad2 m ++ "-" ++ pad2 d

/-- Outcome of loading one YAML line: `none` is a blank line, otherwise a
`key: value` pair; malformed lines are errors (PyYAML `YAMLError`). -/
def yamlLoadLine (line : List Char) : Except String (Option (String × YamlValue)) :=
  let t := chTrim line
  if t = [] then .ok none
  else
    match chFind t [':', ' '] with
    | some i =>
      let key := String.mk (chTrim (t.take i))
      let value := String.mk (chTrim (t.drop (i + 2)))
      if key = "" then .error "empty mapping key"
      else if pyStartsWith value "[" && !(containsSub value "]") then
        .error "unterminated flow sequence"
      else if pyStartsWith value "\x7b" && !(containsSub value "\x7d") then
        .error "unterminated flow mapping"
      else .ok (some (key, parseScalar value))
    | none =>
      match t.getLast? with
      | some ':' =>
        let key := String.mk (chTrim (t.dropLast))
        if key = "" then .error "empty mapping key"
        else .ok (some (key, .null))
      | _ => .error "could not find expected mapping separator"

/-- Fold the lines of a YAML document into a dict (later duplicate keys
overwrite earlier ones, as in a Python dict built by PyYAML). -/
def yamlLoadLines (acc : Dict) : List (List Char) → Except String Dict
  | [] => .ok acc
  | l :: rest =>
    match yamlLoadLine l with
    | .error e => .error e
    | .ok none => yamlLoadLines acc rest
    | .ok (some (k, v)) => yamlLoadLines (dictInsert acc k v) rest

/-- `yaml.safe_load` on the modelled subset. -/
def yamlLoad (text : String) : Except String Dict :=
  yamlLoadLines [] (chSplitNL text.toList)

/-- Render one mapping line as `yaml.dump` does. -/
def yamlDumpLine (p : String × YamlValue) : String :=
  p.1 ++ ": " ++ renderScalar p.2 ++ "\n"

/-- `yaml.dump(d, sort_keys=False, default_flow_style=False)` on the
modelled subset (an empty mapping prints as `{}`). -/
def yamlDump (d : Dict) : String :=
  if d = [] then "{}\n"
  else String.join (d.map yamlDumpLine)

/-! ### discovery.py — FrontmatterParser -/

/-- `FrontmatterParser.parse` (src/discovery.py:126-165): split a Markdown
file into its YAML frontmatter and body.  No opening `---` or an opening
`---` without a closing `\n---` yields an empty dict and the whole (stripped)
content as body; a YAML error inside a delimited block is raised
(`FrontmatterParseError`). -/
def FrontmatterParser.parse (content : String) : Except String (Dict × String) :=
  let c := pyStrip content
  if !(pyStartsWith c "---") then .ok ([], c)
  else
    match pyFindFrom c "\n---" 3 with
    | none => .ok ([], c)
    | some endMatch =>
      let frontmatterText := pyStrip (pySlice c 3 endMatch)
      let bodyContent := pyStrip (pyDropChars c (endMatch + 4))
      match yamlLoad frontmatterText with
      | .error e => .error e
      | .ok fm => .ok (fm, bodyContent)

/-! ### models.py — PipelineStatus and metadata records -/

/-- `PipelineStatus` (src/models.py:53-58). -/
inductive PipelineStatus where
  | pending
  | approved
  | uploaded
  | failed
deriving DecidableEq, Repr

/-- The `.value` attribute of the status enum. -/
def PipelineStatus.value : PipelineStatus → String
  | .pending => "pending"
  | .approved => "approved"
  | .uploaded => "uploaded"
  | .failed => "failed"

/-- The enum constructor `PipelineStatus(s)`: `none` models the
`ValueError` raised on an unrecognized value. -/
def pipelineStatusOf (s : String) : Option PipelineStatus :=
  if s = "pending" then some .pending
  else if s = "approved" then some .approved
  else if s = "uploaded" then some .uploaded
  else if s = "failed" then some .failed
  else none

/-- A calendar date as carried by `datetime.date` (range validation of the
month/day fields is not modelled). -/
structure DateYMD where
  y : Nat
  m : Nat
  d : Nat
deriving DecidableEq, Repr

/-- `TranscriptMetadata` (src/models.py:66-84).  String-typed fields are
kept as raw YAML scalars because the Python dataclass performs no type
checking on them. -/
structure TranscriptMetadata where
  channel : YamlValue
  video_id : YamlValue
  title : YamlValue
  published_at : DateYMD
  duration : YamlValue
  word_count : Int
deriving DecidableEq, Repr

/-- `TranscriptFile` (src/models.py:87-103). -/
structure TranscriptFile where
  path : String
  metadata : TranscriptMetadata
  content : String
  status : Option PipelineStatus
  source_id : Option YamlValue
deriving DecidableEq, Repr

/-! ### discovery.py — StatusChecker -/

/-- `StatusChecker.get_status` (src/discovery.py:358-376): a missing or
falsy `status` value yields `None`; an unrecognized value raises
`ValueError`, which is caught and also yields `None`. -/
def StatusChecker.get_status (frontmatter : Dict) : Option PipelineStatus :=
  match dictGet frontmatter "status" with
  | none => none
  | some v =>
    if !(yamlTruthy v) then none
    else
      match v with
      | .str s => pipelineStatusOf s
      | _ => none

/-- `StatusChecker.is_processed` (src/discovery.py:378-399). -/
def StatusChecker.is_processed (frontmatter : Dict) : Bool :=
  match StatusChecker.get_status frontmatter with
  | none => false
  | some s => s = .uploaded || s = .approved || s = .pending

/-- `StatusChecker.should_retry` (src/discovery.py:401-427). -/
def StatusChecker.should_retry (frontmatter : Dict) (force : Bool) : Bool :=
  match StatusChecker.get_status frontmatter with
  | none => true
  | some s => if s = .failed then force else false

/-! ### discovery.py — TranscriptMetadataExtractor -/

/-- The three `strptime` formats accepted by
`TranscriptMetadataExtractor._parse_date` for strings. -/
def strptimeDateDashed (sep : Char) (cs : List Char) : Option DateYMD :=
  match cs with
  | [y1, y2, y3, y4, s1, m1, m2, s2, d1, d2] =>
    if isDigitCh y1 && isDigitCh y2 && isDigitCh y3 && isDigitCh y4 &&
       s1 = sep && isDigitCh m1 && isDigitCh m2 && s2 = sep &&
       isDigitCh d1 && isDigitCh d2 then
      some ⟨natOfDigits [y1, y2, y3, y4], natOfDigits [m1, m2], natOfDigits [d1, d2]⟩
    else none
  | _ => none

/-- The compact `%Y%m%d` format. -/
def strptimeDateCompact (cs : List Char) : Option DateYMD :=
  match cs with
  | [y1, y2, y3, y4, m1, m2, d1, d2] =>
    if (cs.all isDigitCh) then
      some ⟨natOfDigits [y1, y2, y3, y4], natOfDigits [m1, m2], natOfDigits [d1, d2]⟩
    else none
  | _ => none

/-- String branch of `TranscriptMetadataExtractor._parse_date`
(src/discovery.py:313-344): strip and try the formats in order. -/
def strptimeDate (s : String) : Option DateYMD :=
  let t := chTrim s.toList
  match strptimeDateDashed '-' t with
  | some d => some d
  | none =>
    match strptimeDateDashed '/' t with
    | some d => some d
    | none => strptimeDateCompact t

/-- `TranscriptMetadataExtractor._parse_date` on a YAML scalar: a resolved
date passes through, a string is tried against the formats, anything else
is a `MetadataExtractionError`. -/
def parseDateValue : YamlValue → Except String DateYMD
  | .date y m d => .ok ⟨y, m, d⟩
  | .str s =>
    match strptimeDate s with
    | some d => .ok d
    | none => .error "cannot parse date format"
  | _ => .error "unsupported date type"

/-- The `word_count` extraction `frontmatter.get("word_count", 0) or 0`.
A truthy non-integer value later raises `TypeError` in the word-count
comparison inside the discover loop; that failure is modelled here at
extraction, which lands the file in the same skipped bucket. -/
def wordCountValue : Option YamlValue → Except String Int
  | none => .ok 0
  | some .null => .ok 0
  | some (.int n) => .ok n
  | some (.str s) => if s = "" then .ok 0 else .error "word_count is not an integer"
  | some (.date _ _ _) => .error "word_count is not an integer"

/-- `TranscriptMetadataExtractor.REQUIRED_FIELDS` (src/discovery.py:202). -/
def TranscriptMetadataExtractor.REQUIRED_FIELDS : List String :=
  ["channel", "video_id", "title", "published_at"]

/-- `TranscriptMetadataExtractor.extract` (src/discovery.py:204-259).
The filename-based video-id recovery of `extract_video_id` (a cascade of
regular expressions over the file name) is abstracted as the parameter
`fallbackVideoId`; every claim proved below holds for an arbitrary such
function. -/
def TranscriptMetadataExtractor.extract (fallbackVideoId : String → Option String)
    (frontmatter : Dict) (filename : String) : Except String TranscriptMetadata :=
  let missing := TranscriptMetadataExtractor.REQUIRED_FIELDS.filter (fun f =>
    match dictGet frontmatter f with
    | none => true
    | some .null => true
    | some _ => false)
  let recovered :=
    if missing.contains "video_id" then
      match fallbackVideoId filename with
      | some vid => (dictInsert frontmatter "video_id" (.str vid), missing.erase "video_id")
      | none => (frontmatter, missing)
    else (frontmatter, missing)
  let fm := recovered.1
  if recovered.2 ≠ [] then .error "missing required fields"
  else
    match parseDateValue ((dictGet fm "published_at").getD .null) with
    | .error e => .error e
    | .ok pa =>
      match wordCountValue (dictGet fm "word_count") with
      | .error e => .error e
      | .ok wc =>
        .ok { channel := (dictGet fm "channel").getD .null
              video_id := (dictGet fm "video_id").getD .null
              title := (dictGet fm "title").getD .null
              published_at := pa
              duration := (dictGet fm "duration").getD (.str "")
              word_count := wc }

/-! ### discovery.py — FileFilter -/

/-- Membership of a YAML scalar in a list of strings, modelling Python
`channel in whitelist` (a non-string channel value is never a member). -/
def yamlValueInStrList (v : YamlValue) (l : List String) : Bool :=
  match v with
  | .str s => l.contains s
  | _ => false

/-- `FileFilter.should_process` (src/discovery.py:456-484): status check
first, then the minimum word count. -/
def FileFilter.should_process (min_word_count : Int) (metadata : TranscriptMetadata)
    (frontmatter : Dict) : Bool × Option String :=
  if StatusChecker.is_processed frontmatter then
    (false, some ("已處理 (status=" ++
      (match StatusChecker.get_status frontmatter with
       | some s => s.value
       | none => "") ++ ")"))
  else if metadata.word_count < min_word_count then
    (false, some ("字數不足 (" ++ toString metadata.word_count ++ " < " ++
      toString min_word_count ++ ")"))
  else (true, none)

/-- `FileFilter.filter_by_channel` (src/discovery.py:486-513). -/
def FileFilter.filter_by_channel (metadata : TranscriptMetadata)
    (whitelist blacklist : Option (List String)) : Bool × Option String :=
  if whitelist.isSome && !(yamlValueInStrList metadata.channel (whitelist.getD [])) then
    (false, some "頻道不在白名單中")
  else if blacklist.isSome && yamlValueInStrList metadata.channel (blacklist.getD []) then
    (false, some "頻道在黑名單中")
  else (true, none)

/-! ### discovery.py — DiscoveryService -/

/-- Outcome of one iteration of the `DiscoveryService.discover` loop
(src/discovery.py:591-645), naming the statistics bucket each skipped file
falls into. -/
inductive DiscoverOutcome where
  | parseFailed
  | filteredStatus
  | filteredWordCount
  | filteredOther
  | filteredChannel
  | ready (t : TranscriptFile)
deriving DecidableEq, Repr

/-- The reason-string dispatch of the discover loop
(`if "已處理" in reason ... elif "字數" in reason`). -/
def DiscoveryService.classifyReason (reason : String) : DiscoverOutcome :=
  if containsSub reason "已處理" then .filteredStatus
  else if containsSub reason "字數" then .filteredWordCount
  else .filteredOther

/-- Loop body of `DiscoveryService.discover` (src/discovery.py:591-645) for
one scanned file, given as a (path, content) pair. -/
def DiscoveryService.discover_step (min_word_count : Int)
    (whitelist blacklist : Option (List String))
    (fallbackVideoId : String → Option String)
    (file : String × String) : DiscoverOutcome :=
  match FrontmatterParser.parse file.2 with
  | .error _ => .parseFailed
  | .ok (frontmatter, content) =>
    match TranscriptMetadataExtractor.extract fallbackVideoId frontmatter file.1 with
    | .error _ => .parseFailed
    | .ok metadata =>
      let sp := FileFilter.should_process min_word_count metadata frontmatter
      if !sp.1 then DiscoveryService.classifyReason (sp.2.getD "")
      else
        let fc := FileFilter.filter_by_channel metadata whitelist blacklist
        if !fc.1 then .filteredChannel
        else
          .ready { path := file.1
                   metadata := metadata
                   content := content
                   status := StatusChecker.get_status frontmatter
                   source_id := dictGet frontmatter "source_id" }

/-- `DiscoveryService.discover` (src/discovery.py:556-647): the admitted
list of transcript files for a scanned tree, given as (path, content)
pairs in scan order. -/
def DiscoveryService.discover (tree : List (String × String)) (min_word_count : Int)
    (whitelist blacklist : Option (List String))
    (fallbackVideoId : String → Option String) : List TranscriptFile :=
  tree.filterMap (fun file =>
    match DiscoveryService.discover_step min_word_count whitelist blacklist fallbackVideoId file with
    | .ready t => some t
    | _ => none)

/-! ### Filesystem model -/

/-- The filesystem under the content root: an association from path to file
content. -/
abbrev FS := List (String × String)

/-- Read a file (`none` models `FileNotFoundError`). -/
def fsRead (fs : FS) (p : String) : Option String :=
  (fs.find? (fun e => e.1 = p)).map (·.2)

/-- Create or overwrite a file. -/
def fsWrite : FS → String → String → FS
  | [], p, c => [(p, c)]
  | e :: fs, p, c => if e.1 = p then (p, c) :: fs else e :: fsWrite fs p c

/-- Delete a file (`Path.unlink`). -/
def fsRemove (fs : FS) (p : String) : FS :=
  fs.filter (fun e => e.1 ≠ p)

/-- A primitive mutating filesystem operation. -/
inductive FsOp where
  | write (path content : String)
  | rename (src dst : String)
deriving DecidableEq, Repr

/-- Apply one completed operation. -/
def applyFsOp (fs : FS) : FsOp → FS
  | .write p c => fsWrite fs p c
  | .rename a b =>
    match fsRead fs a with
    | none => fs
    | some c => fsWrite (fsRemove fs a) b c

/-- Apply one operation that crashed midway: a file write that aborted
after `k` characters leaves the `k`-character prefix on disk; a rename is
atomic, so a crashed rename leaves the filesystem unchanged. -/
def applyFsOpPartial (fs : FS) (op : FsOp) (k : Nat) : FS :=
  match op with
  | .write p c => fsWrite fs p (pyTakeChars c k)
  | .rename _ _ => fs

/-- Run a sequence of operations to completion. -/
def runFsOps (fs : FS) (ops : List FsOp) : FS :=
  ops.foldl applyFsOp fs

/-- Run a sequence of operations, crashing during operation number `step`
(0-based) after `k` characters of that write have reached the disk. -/
def runFsOpsCrash (fs : FS) (ops : List FsOp) (step k : Nat) : FS :=
  let before := runFsOps fs (ops.take step)
  match ops[step]? with
  | none => before
  | some op => applyFsOpPartial before op k

/-! ### state.py — errors, FrontmatterReader -/

/-- Error taxonomy of the state module (src/state.py:32-49), plus the
`TypeError` that Python raises for a keyword-argument mismatch. -/
inductive StateErr where
  | fileNotFound
  | frontmatterReadError
  | frontmatterWriteError
  | fileMoveError
  | typeError (msg : String)
deriving DecidableEq, Repr

/-- `FrontmatterReader.read` (src/state.py:95-118). -/
def FrontmatterReader.read (fs : FS) (filepath : String) : Except StateErr Dict :=
  match fsRead fs filepath with
  | none => .error .fileNotFound
  | some c =>
    match FrontmatterParser.parse c with
    | .error _ => .error .frontmatterReadError
    | .ok (fm, _) => .ok fm

/-- `FrontmatterReader.read_status` (src/state.py:120-143): read errors and
the `ValueError` of an unrecognized status value all collapse to `None`. -/
def FrontmatterReader.read_status (fs : FS) (filepath : String) : Option PipelineStatus :=
  match FrontmatterReader.read fs filepath with
  | .error _ => none
  | .ok fm =>
    match dictGet fm "status" with
    | none => none
    | some v =>
      if !(yamlTruthy v) then none
      else
        match v with
        | .str s => pipelineStatusOf s
        | _ => none

/-- `FrontmatterReader.read_source_id` (src/state.py:145-159). -/
def FrontmatterReader.read_source_id (fs : FS) (filepath : String) : Option YamlValue :=
  match FrontmatterReader.read fs filepath with
  | .error _ => none
  | .ok fm => dictGet fm "source_id"

/-! ### state.py — FrontmatterWriter -/

/-- Serialize a frontmatter dict and body back into file content,
`f"---\n{yaml_content}---\n\n{body}"` (src/state.py:222). -/
def renderContent (fm : Dict) (body : String) : String :=
  "---\n" ++ yamlDump fm ++ "---\n\n" ++ body

/-- The new file content computed by `FrontmatterWriter.write`
(src/state.py:182-228): read-merge-write over the existing content. -/
def FrontmatterWriter.new_content (content : String) (updates : Dict) : Except String String :=
  match FrontmatterParser.parse content with
  | .error e => .error e
  | .ok (frontmatter, body) => .ok (renderContent (dictMerge frontmatter updates) body)

/-- The sequence of mutating filesystem operations performed by
`FrontmatterWriter.write`: a single direct `write_text` of the new content
to the target path itself. -/
def FrontmatterWriter.write_ops (fs : FS) (filepath : String) (updates : Dict) :
    Except StateErr (List FsOp) :=
  match fsRead fs filepath with
  | none => .error .fileNotFound
  | some c =>
    match FrontmatterWriter.new_content c updates with
    | .error _ => .error .frontmatterWriteError
    | .ok nc => .ok [.write filepath nc]

/-- `FrontmatterWriter.write` (src/state.py:182-228) run to completion. -/
def FrontmatterWriter.write (fs : FS) (filepath : String) (updates : Dict) :
    Except StateErr FS :=
  match FrontmatterWriter.write_ops fs filepath updates with
  | .error e => .error e
  | .ok ops => .ok (runFsOps fs ops)

/-- `FrontmatterWriter.write_status` (src/state.py:230-242). -/
def FrontmatterWriter.write_status (fs : FS) (filepath : String) (status : PipelineStatus) :
    Except StateErr FS :=
  FrontmatterWriter.write fs filepath [("status", .str status.value)]

/-- `FrontmatterWriter.write_source_id` (src/state.py:244-256). -/
def FrontmatterWriter.write_source_id (fs : FS) (filepath source_id : String) :
    Except StateErr FS :=
  FrontmatterWriter.write fs filepath [("source_id", .str source_id)]

/-! ### models.py `ErrorInfo` and Python keyword-argument construction -/

/-- A Python object as a map from attribute name to value. -/
abbrev PyObj := List (String × String)

/-- Attribute access; a missing attribute raises `AttributeError`. -/
def attrGet (o : PyObj) (name : String) : Except String String :=
  match (o.find? (fun p => p.1 = name)).map (·.2) with
  | some v => .ok v
  | none => .error ("AttributeError: " ++ name)

/-- The field names of the `ErrorInfo` dataclass (src/models.py:149-161):
`error`, `error_code`, `failed_at`. -/
def ErrorInfo.fields : List String :=
  ["error", "error_code", "failed_at"]

/-- Python dataclass construction by keyword arguments: a keyword that is
not a field, or a missing required field, raises `TypeError`. -/
def ErrorInfo.mk_kwargs (kwargs : List (String × String)) : Except String PyObj :=
  if kwargs.all (fun p => ErrorInfo.fields.contains p.1) &&
     ErrorInfo.fields.all (fun f => kwargs.any (fun p => p.1 = f)) then
    .ok kwargs
  else
    .error "TypeError: ErrorInfo got unexpected or missing keyword arguments"

/-- `FrontmatterWriter.write_error` (src/state.py:258-278): builds the
error dict from `error.message`, `error.code`, `error.timestamp` and writes
it together with `status: failed`. -/
def FrontmatterWriter.write_error (fs : FS) (filepath : String) (error : PyObj)
    (now : String) : Except StateErr FS :=
  match attrGet error "message" with
  | .error e => .error (.typeError e)
  | .ok msg =>
    match attrGet error "code" with
    | .error e => .error (.typeError e)
    | .ok code =>
      match attrGet error "timestamp" with
      | .error e => .error (.typeError e)
      | .ok ts =>
        FrontmatterWriter.write fs filepath
          [("error", .str msg), ("error_code", .str code),
           ("failed_at", .str (if ts = "" then now else ts)),
           ("status", .str PipelineStatus.failed.value)]

/-! ### state.py — IdempotencyChecker -/

/-- `IdempotencyChecker.is_processed` (src/state.py:301-316). -/
def IdempotencyChecker.is_processed (fs : FS) (filepath : String) : Bool :=
  FrontmatterReader.read_status fs filepath = some .uploaded &&
    (FrontmatterReader.read_source_id fs filepath).isSome

/-- `IdempotencyChecker.should_retry` (src/state.py:357-383). -/
def IdempotencyChecker.should_retry (fs : FS) (filepath : String) (force : Bool) : Bool :=
  match FrontmatterReader.read_status fs filepath with
  | none => true
  | some s => if s = .failed then force else false

/-! ### state.py — FileMover -/

/-- Join a directory and an entry name. -/
def pathJoin (dir name : String) : String :=
  dir ++ "/" ++ name

/-- The file name component of a path (`Path.name`). -/
def pathName (p : String) : String :=
  String.mk (p.toList.reverse.takeWhile (fun c => c ≠ '/')).reverse

/-- `FileMover._move_file` (src/state.py:441-471): ensure the directory,
unlink an existing destination, then move.  Moving a file onto itself
first unlinks it and then fails, and a missing source fails; both are
wrapped in `FileMoveError`. -/
def FileMover.move_file (fs : FS) (source_path target_dir : String) :
    Except StateErr (FS × String) :=
  match fsRead fs source_path with
  | none => .error .fileMoveError
  | some c =>
    let target_path := pathJoin target_dir (pathName source_path)
    if target_path = source_path then .error .fileMoveError
    else .ok (fsWrite (fsRemove fs source_path) target_path c, target_path)

/-- `FileMover.move_to_approved` (src/state.py:419-439). -/
def FileMover.move_to_approved (fs : FS) (source_path intermediate_dir channel year_month : String) :
    Except StateErr (FS × String) :=
  FileMover.move_file fs source_path
    (pathJoin (pathJoin (pathJoin intermediate_dir "approved") channel) year_month)

/-! ### state.py — StateManager -/

/-- `datetime.fromisoformat` on a YAML scalar followed by
`strftime("%Y-%m")`: only a string starting with a full `YYYY-MM-DD` date
parses; a resolved date object (or any non-string) raises `TypeError`,
which `mark_as_uploaded` catches.  Trailing time-of-day text after the
date is accepted without further validation. -/
def isoYearMonth : YamlValue → Option String
  | .str s =>
    let cs := chTrim s.toList
    if isDateLit (cs.take 10) &&
       (cs.length = 10 || cs[10]? = some 'T' || cs[10]? = some ' ') then
      some (String.mk (cs.take 7))
    else none
  | _ => none

/-- The two header writes of `StateManager.mark_as_uploaded`
(src/state.py:848-850): `status = uploaded`, then `source_id`. -/
def StateManager.mark_as_uploaded_header_writes (fs : FS) (filepath source_id : String) :
    Except StateErr FS :=
  match FrontmatterWriter.write_status fs filepath .uploaded with
  | .error e => .error e
  | .ok fs1 => FrontmatterWriter.write_source_id fs1 filepath source_id

/-- The optional synchronization of the original transcript file
(src/state.py:852-859); its failures are caught and logged, leaving any
partial effect in place. -/
def StateManager.sync_original (fs : FS) (original_filepath : Option String)
    (source_id : String) : FS :=
  match original_filepath with
  | none => fs
  | some op =>
    if (fsRead fs op).isSome then
      match FrontmatterWriter.write_status fs op .uploaded with
      | .error _ => fs
      | .ok fs1 =>
        match FrontmatterWriter.write_source_id fs1 op source_id with
        | .error _ => fs1
        | .ok fs2 => fs2
    else fs

/-- The relocation phase of `StateManager.mark_as_uploaded`
(src/state.py:861-878): re-read the header for `channel`/`published_at`,
derive the `YYYY-MM` directory (falling back to the current month), and
move into `approved/{channel}/{YYYY-MM}`. -/
def StateManager.mark_as_uploaded_move (fs : FS) (filepath intermediate_dir nowYM : String) :
    Except StateErr (FS × String) :=
  match FrontmatterReader.read fs filepath with
  | .error e => .error e
  | .ok fm =>
    match (match dictGet fm "channel" with
           | none => Except.ok "unknown"
           | some (.str s) => Except.ok s
           | some _ => Except.error (StateErr.typeError "channel is not a string")) with
    | .error e => .error e
    | .ok channel =>
      let year_month := (isoYearMonth ((dictGet fm "published_at").getD (.str ""))).getD nowYM
      FileMover.move_to_approved fs filepath intermediate_dir channel year_month

/-- `StateManager.mark_as_uploaded` (src/state.py:823-878): header writes,
optional original-file sync, then relocation. -/
def StateManager.mark_as_uploaded (fs : FS) (filepath source_id intermediate_dir : String)
    (original_filepath : Option String) (nowYM : String) : Except StateErr (FS × String) :=
  match StateManager.mark_as_uploaded_header_writes fs filepath source_id with
  | .error e => .error e
  | .ok fs2 =>
    let fs3 := StateManager.sync_original fs2 original_filepath source_id
    StateManager.mark_as_uploaded_move fs3 filepath intermediate_dir nowYM

/-- `StateManager.mark_as_failed` (src/state.py:880-905): constructs
`ErrorInfo(message=error, code=error_code, timestamp=now)` and hands it to
`write_error`. -/
def StateManager.mark_as_failed (fs : FS) (filepath : String) (error error_code : String)
    (now : String) : Except StateErr FS :=
  match ErrorInfo.mk_kwargs [("message", error), ("code", error_code), ("timestamp", now)] with
  | .error e => .error (.typeError e)
  | .ok errorInfo => FrontmatterWriter.write_error fs filepath errorInfo now

/-! ### uploader.py — FixedDelayRetry -/

/-- `FixedDelayRetry` (src/uploader.py:110-176).  The delay is modelled in
whole seconds. -/
structure FixedDelayRetry where
  max_attempts : Nat := 3
  delay : Nat := 5
deriving DecidableEq, Repr

/-- Python truthiness conjunction `status_code and 500 <= status_code < 600`. -/
def is5xxTruthy (c : Int) : Bool :=
  decide (c ≠ 0) && decide (500 ≤ c) && decide (c < 600)

/-- `FixedDelayRetry.should_retry` (src/uploader.py:138-164). -/
def FixedDelayRetry.should_retry (r : FixedDelayRetry) (status_code : Option Int)
    (attempt : Nat) : Bool :=
  if attempt ≥ r.max_attempts then false
  else if (match status_code with
           | some c => is5xxTruthy c
           | none => false) then true
  else if status_code = some 429 then true
  else if status_code = none then true
  else false

/-- `FixedDelayRetry.get_delay` (src/uploader.py:166-176). -/
def FixedDelayRetry.get_delay (r : FixedDelayRetry) (_attempt : Nat) : Nat :=
  r.delay

/-! ### uploader.py — OpenNotebookClient -/

/-- One network attempt as observed by `_make_request`: an HTTP response,
a `requests.Timeout`, or another `requests.RequestException`. -/
inductive HttpResp where
  | resp (status : Int) (body : String)
  | timeout
  | connError (msg : String)
deriving DecidableEq, Repr

/-- The exception classes of the uploader module (src/uploader.py:33-63),
each carrying its `status_code` attribute as constructed at the raise
site. -/
inductive APIErr where
  | apiError (msg : String) (status_code : Option Int)
  | authenticationError (status_code : Option Int)
  | sourceNotFoundError (status_code : Option Int)
  | notebookNotFoundError (status_code : Option Int)
  | rateLimitError (status_code : Option Int)
deriving DecidableEq, Repr

/-- The `status_code` attribute of a raised API error. -/
def APIErr.status_code : APIErr → Option Int
  | .apiError _ sc => sc
  | .authenticationError sc => sc
  | .sourceNotFoundError sc => sc
  | .notebookNotFoundError sc => sc
  | .rateLimitError sc => sc

/-- Loop body of `OpenNotebookClient._make_request`
(src/uploader.py:212-281), with the attempt outcomes supplied by `oracle`
and the slept delays accumulated.  `fuel` counts the remaining iterations
of `range(1, max_attempts + 1)`. -/
def OpenNotebookClient.make_request_go (retry : FixedDelayRetry) (endpoint : String)
    (oracle : Nat → HttpResp) : Nat → Nat → Except APIErr String × List Nat
  | _, 0 => (.error (.apiError "request loop exhausted" none), [])
  | attempt, fuel + 1 =>
    match oracle attempt with
    | .resp status body =>
      if status = 200 || status = 201 then (.ok body, [])
      else if status = 401 then (.error (.authenticationError none), [])
      else if status = 404 then
        if containsSub (pyLower endpoint) "notebook" then
          (.error (.notebookNotFoundError none), [])
        else (.error (.sourceNotFoundError none), [])
      else if status = 429 then
        if retry.should_retry (some 429) attempt then
          let rest := OpenNotebookClient.make_request_go retry endpoint oracle (attempt + 1) fuel
          (rest.1, retry.get_delay attempt :: rest.2)
        else (.error (.rateLimitError none), [])
      else
        if retry.should_retry (some status) attempt then
          let rest := OpenNotebookClient.make_request_go retry endpoint oracle (attempt + 1) fuel
          (rest.1, retry.get_delay attempt :: rest.2)
        else
          (.error (.apiError ("API 錯誤: " ++ toString status) (some status)), [])
    | .timeout =>
      if retry.should_retry none attempt then
        let rest := OpenNotebookClient.make_request_go retry endpoint oracle (attempt + 1) fuel
        (rest.1, retry.get_delay attempt :: rest.2)
      else (.error (.apiError "請求超時" none), [])
    | .connError msg =>
      if retry.should_retry none attempt then
        let rest := OpenNotebookClient.make_request_go retry endpoint oracle (attempt + 1) fuel
        (rest.1, retry.get_delay attempt :: rest.2)
      else (.error (.apiError ("請求失敗: " ++ msg) none), [])

/-- `OpenNotebookClient._make_request` (src/uploader.py:212-281). -/
def OpenNotebookClient.make_request (retry : FixedDelayRetry) (endpoint : String)
    (oracle : Nat → HttpResp) : Except APIErr String × List Nat :=
  OpenNotebookClient.make_request_go retry endpoint oracle 1 retry.max_attempts

/-! ### llm/gemini_cli.py — retry loop -/

/-- One `subprocess.run` outcome of the Gemini CLI call. -/
inductive AttemptResult where
  | success (stdout : String)
  | failure (returncode : Int) (stderr : String)
  | timedOut
deriving DecidableEq, Repr

/-- The LLM exception taxonomy (src/llm/exceptions.py:11-34), each with the
attributes set at its raise site. -/
inductive LLMErr where
  | callError (exit_code : Option Int) (stderr : String)
  | timeoutError (timeout_seconds : Nat)
  | rateLimitError (retry_after : Option Nat)
deriving DecidableEq, Repr

/-- The quota/rate-limit marker test on lowercase stderr
(src/llm/gemini_cli.py:311-312). -/
def isQuotaStderr (stderr : String) : Bool :=
  containsSub (pyLower stderr) "exhausted your capacity" ||
    containsSub (pyLower stderr) "rate limit"

/-- Loop body of `GeminiCLIProvider._call_gemini_with_streaming`
(src/llm/gemini_cli.py:267-339), with attempt outcomes supplied by
`oracle` and slept delays accumulated.  The `retry_after` passed to the
rate-limit error is written exactly as at the raise site:
`delay if attempt < max_retries else None`. -/
def GeminiCLIProvider.call_gemini_go (max_retries initial_retry_delay timeoutS : Nat)
    (oracle : Nat → AttemptResult) : Nat → Nat → Except LLMErr String × List Nat
  | _, 0 => (.error (.callError none "retry loop exhausted"), [])
  | attempt, fuel + 1 =>
    match oracle attempt with
    | .success out => (.ok out, [])
    | .failure rc stderr =>
      if isQuotaStderr stderr then
        if attempt < max_retries then
          let delay := min (initial_retry_delay * 2 ^ (attempt - 1)) 60
          let rest := GeminiCLIProvider.call_gemini_go max_retries initial_retry_delay timeoutS
            oracle (attempt + 1) fuel
          (rest.1, delay :: rest.2)
        else
          (.error (.rateLimitError
            (if attempt < max_retries then
              some (min (initial_retry_delay * 2 ^ (attempt - 1)) 60)
             else none)), [])
      else (.error (.callError (some rc) stderr), [])
    | .timedOut =>
      if attempt = max_retries then (.error (.timeoutError timeoutS), [])
      else
        let rest := GeminiCLIProvider.call_gemini_go max_retries initial_retry_delay timeoutS
          oracle (attempt + 1) fuel
        (rest.1, initial_retry_delay * attempt :: rest.2)

/-- `GeminiCLIProvider._call_gemini_with_streaming`
(src/llm/gemini_cli.py:267-339). -/
def GeminiCLIProvider.call_gemini_with_streaming (max_retries initial_retry_delay timeoutS : Nat)
    (oracle : Nat → AttemptResult) : Except LLMErr String × List Nat :=
  GeminiCLIProvider.call_gemini_go max_retries initial_retry_delay timeoutS oracle 1 max_retries

/-! ### main.py — the upload step -/

/-- Validity of an ISO date-or-datetime string for
`datetime.fromisoformat` (a full `YYYY-MM-DD` prefix, optionally followed
by a time part; the time part is accepted without further validation). -/
def isoParseOk (s : String) : Bool :=
  let cs := chTrim s.toList
  isDateLit (cs.take 10) &&
    (cs.length = 10 || cs[10]? = some 'T' || cs[10]? = some ' ')

/-- The conditions under which
`StatePersistence.load_analyzed_transcript` (src/state.py:635-719) returns
without raising, checked in evaluation order.  List-valued `segments` are
outside the modelled scalar universe, so a present truthy `segments` value
is a load failure here; a present `error` key always fails because of the
`ErrorInfo(message=..., code=..., timestamp=...)` keyword mismatch at
src/state.py:706. -/
def StatePersistence.load_analyzed_check (fm : Dict) : Except String Unit := do
  if (dictGet fm "channel").isNone then throw "KeyError: channel"
  if (dictGet fm "video_id").isNone then throw "KeyError: video_id"
  if (dictGet fm "title").isNone then throw "KeyError: title"
  match dictGet fm "published_at" with
  | none => throw "KeyError: published_at"
  | some (.str s) => if !(isoParseOk s) then throw "ValueError: published_at"
  | some _ => pure ()
  match dictGet fm "segments" with
  | some v => if yamlTruthy v then throw "TypeError: segments"
  | none => pure ()
  if (dictGet fm "semantic_summary").isNone then throw "KeyError: semantic_summary"
  match dictGet fm "analyzed_by" with
  | none => pure ()
  | some (.str _) => pure ()
  | some _ => throw "TypeError: analyzed_by"
  match dictGet fm "analyzed_at" with
  | some (.str s) => if !(isoParseOk s) then throw "ValueError: analyzed_at"
  | _ => pure ()
  match dictGet fm "status" with
  | none => pure ()
  | some (.str s) => if (pipelineStatusOf s).isNone then throw "ValueError: status"
  | some _ => throw "ValueError: status"
  if (dictGet fm "error").isSome then throw "TypeError: ErrorInfo keyword arguments"

/-- The external upload calls performed by `KnowledgePipeline.run_upload`
(src/main.py:306-394) over the files found under the pending directory
(with `dry_run = False` and a healthy service): for each `*_analyzed.md`
file whose `load_analyzed_transcript` succeeds, `uploader.upload` is
invoked, which calls the external API; a file that fails to load is marked
failed without any external call.  The header `status` is never
consulted. -/
def Main.run_upload_external_calls (pending_dir_files : List (String × String)) : List String :=
  pending_dir_files.filterMap (fun f =>
    if !(pyEndsWith f.1 "_analyzed.md") then none
    else
      match FrontmatterParser.parse f.2 with
      | .error _ => none
      | .ok (fm, _) =>
        match StatePersistence.load_analyzed_check fm with
        | .error _ => none
        | .ok _ => some f.1)

/-! ### Well-formedness of ledger headers

The round-trip theorems below require the serialized header to re-parse to
itself.  These decidable predicates delimit the header dictionaries and
bodies for which the modelled codec is inverse to itself; they hold for all
ledger fields the pipeline itself writes. -/

/-- A key renders as written: nonempty, no newline or colon, does not start
with a dash, and carries no surrounding whitespace. -/
def wfKeyStr (k : String) : Bool :=
  !(k = "") &&
  k.toList.all (fun c => !(c = '\n') && !(c = ':')) &&
  !(k.toList.head? = some '-') &&
  decide (chTrim k.toList = k.toList)

/-- A value whose rendering re-parses to itself: no newline, no surrounding
whitespace, scalar classification is stable and the flow-bracket checks
pass. -/
def wfValStr (v : YamlValue) : Bool :=
  let r := renderScalar v
  !(r = "") &&
  r.toList.all (fun c => !(c = '\n')) &&
  decide (chTrim r.toList = r.toList) &&
  decide (parseScalar r = v) &&
  !(pyStartsWith r "[" && !(containsSub r "]")) &&
  !(pyStartsWith r "\x7b" && !(containsSub r "\x7d"))

/-- A header dictionary that round-trips: nonempty, unique keys, and every
entry well-formed. -/
def wfDict (d : Dict) : Bool :=
  !(d = []) &&
  decide ((d.map (·.1)).Nodup) &&
  d.all (fun p => wfKeyStr p.1 && wfValStr p.2)

/-- A body that round-trips: carries no surrounding whitespace and is
nonempty. -/
def wfBody (b : String) : Bool :=
  decide (chTrim b.toList = b.toList) && !(b = "")

/-- Characters of one dumped mapping line without its trailing newline. -/
def lineBody (p : String × YamlValue) : List Char :=
  p.1.toList ++ ':' :: ' ' :: (renderScalar p.2).toList

/-- Characters of one dumped mapping line. -/
def lineChars (p : String × YamlValue) : List Char :=
  lineBody p ++ ['\n']

/-- Characters of the dumped (nonempty) mapping. -/
def linesFlat (d : Dict) : List Char :=
  (d.map lineChars).flatten

/-- The dumped lines without their trailing newlines. -/
def linesBodies (d : Dict) : List (List Char) :=
  d.map lineBody

/-! ## Supporting lemmas -/

theorem fsRead_cons (e : String × String) (fs : FS) (p : String) :
    fsRead (e :: fs) p = if e.1 = p then some e.2 else fsRead fs p := by
  by_cases h : e.1 = p <;> simp [fsRead, List.find?, h]

theorem fsRead_fsWrite_self (fs : FS) (p c : String) :
    fsRead (fsWrite fs p c) p = some c := by
  induction fs with
  | nil => simp [fsWrite, fsRead_cons, fsRead]
  | cons e fs ih =>
    by_cases h : e.1 = p
    · simp [fsWrite, h, fsRead_cons]
    · simp [fsWrite, h, fsRead_cons, ih]

theorem fsRead_fsWrite_ne (fs : FS) (p c q : String) (h : q ≠ p) :
    fsRead (fsWrite fs p c) q = fsRead fs q := by
  induction fs with
  | nil => simp [fsWrite, fsRead_cons, fsRead, Ne.symm h]
  | cons e fs ih =>
    by_cases he : e.1 = p
    · simp [fsWrite, he, fsRead_cons, Ne.symm h, he]
    · simp [fsWrite, he, fsRead_cons, ih]

theorem fsRemove_cons (e : String × String) (fs : FS) (p : String) :
    fsRemove (e :: fs) p = if e.1 = p then fsRemove fs p else e :: fsRemove fs p := by
  by_cases h : e.1 = p <;> simp [fsRemove, List.filter, h]

theorem fsRead_fsRemove_self (fs : FS) (p : String) :
    fsRead (fsRemove fs p) p = none := by
  induction fs with
  | nil => simp [fsRemove, fsRead]
  | cons e fs ih =>
    by_cases h : e.1 = p
    · simp [fsRemove_cons, h, ih]
    · simp [fsRemove_cons, h, fsRead_cons, ih]

theorem fsRead_fsRemove_ne (fs : FS) (p q : String) (h : q ≠ p) :
    fsRead (fsRemove fs p) q = fsRead fs q := by
  induction fs with
  | nil => simp [fsRemove, fsRead]
  | cons e fs ih =>
    by_cases he : e.1 = p
    · have : ¬(e.1 = q) := by rw [he]; exact Ne.symm h
      simp [fsRemove_cons, he, fsRead_cons, this, ih, Ne.symm h]
    · simp [fsRemove_cons, he, fsRead_cons, ih]

theorem dictGet_cons (e : String × YamlValue) (d : Dict) (k : String) :
    dictGet (e :: d) k = if e.1 = k then some e.2 else dictGet d k := by
  by_cases h : e.1 = k <;> simp [dictGet, List.find?, h]

theorem dictGet_dictInsert_self (d : Dict) (k : String) (v : YamlValue) :
    dictGet (dictInsert d k v) k = some v := by
  induction d with
  | nil => simp [dictInsert, dictGet_cons, dictGet]
  | cons e d ih =>
    by_cases h : e.1 = k
    · simp [dictInsert, h, dictGet_cons]
    · simp [dictInsert, h, dictGet_cons, ih]

theorem dictGet_dictInsert_ne (d : Dict) (k : String) (v : YamlValue) (q : String)
    (h : q ≠ k) : dictGet (dictInsert d k v) q = dictGet d q := by
  induction d with
  | nil => simp [dictInsert, dictGet_cons, dictGet, Ne.symm h]
  | cons e d ih =>
    by_cases he : e.1 = k
    · simp [dictInsert, he, dictGet_cons, Ne.symm h, he]
    · simp [dictInsert, he, dictGet_cons, ih]

theorem dictMerge_single (d : Dict) (k : String) (v : YamlValue) :
    dictMerge d [(k, v)] = dictInsert d k v := rfl

theorem dictGet_removeKey (d : Dict) (k : String) :
    dictGet (d.filter (fun p => !(p.1 = k))) k = none := by
  induction d with
  | nil => simp [dictGet]
  | cons e d ih =>
    by_cases h : e.1 = k
    · simpa [List.filter, h] using ih
    · simpa [List.filter, dictGet_cons, h] using ih

theorem classifyReason_ne_ready (r : String) (t : TranscriptFile) :
    DiscoveryService.classifyReason r ≠ .ready t := by
  unfold DiscoveryService.classifyReason
  split
  · simp
  · split <;> simp

/-! ## Claim theorems -/

/-- Claim C3: for every header with `status = failed`, regardless of all
other header contents, the retry check returns `False` (SKIP) when
`force = false` and `True` (RETRYABLE) when `force = true`; and for a
header with absent or null status it returns `True` (NEW).  This holds both
for `StatusChecker.should_retry` on a parsed header and for the file-level
`IdempotencyChecker.should_retry`. -/
theorem C3_failed_retry_gating :
    (∀ (fm : Dict) (force : Bool),
      dictGet fm "status" = some (.str "failed") →
        StatusChecker.should_retry fm force = force) ∧
    (∀ (fm : Dict) (force : Bool),
      dictGet fm "status" = none → StatusChecker.should_retry fm force = true) ∧
    (∀ (fm : Dict) (force : Bool),
      dictGet fm "status" = some .null → StatusChecker.should_retry fm force = true) ∧
    (∀ (fs : FS) (p : String) (force : Bool),
      FrontmatterReader.read_status fs p = some .failed →
        IdempotencyChecker.should_retry fs p force = force) ∧
    (∀ (fs : FS) (p : String) (force : Bool),
      FrontmatterReader.read_status fs p = none →
        IdempotencyChecker.should_retry fs p force = true) := by
  refine ⟨?_, ?_, ?_, ?_, ?_⟩
  · intro fm force h
    simp [StatusChecker.should_retry, StatusChecker.get_status, h, yamlTruthy, pipelineStatusOf]
  · intro fm force h
    simp [StatusChecker.should_retry, StatusChecker.get_status, h]
  · intro fm force h
    simp [StatusChecker.should_retry, StatusChecker.get_status, h, yamlTruthy]
  · intro fs p force h
    simp [IdempotencyChecker.should_retry, h]
  · intro fs p force h
    simp [IdempotencyChecker.should_retry, h]

/-- Witness for C3 at concrete headers and a concrete filesystem. -/
theorem C3_failed_retry_gating_witness :
    StatusChecker.should_retry
      [("status", .str "failed"), ("error", .str "boom"), ("error_code", .str "TIMEOUT")]
      false = false ∧
    StatusChecker.should_retry
      [("status", .str "failed"), ("error", .str "boom"), ("error_code", .str "TIMEOUT")]
      true = true ∧
    StatusChecker.should_retry [("title", .str "T")] false = true ∧
    StatusChecker.should_retry [("status", .null)] false = true ∧
    IdempotencyChecker.should_retry
      [("f.md", "---\nstatus: failed\n---\n\nbody")] "f.md" false = false ∧
    IdempotencyChecker.should_retry
      [("f.md", "---\nstatus: failed\n---\n\nbody")] "f.md" true = true :=
  ⟨C3_failed_retry_gating.1 _ false rfl,
   C3_failed_retry_gating.1 _ true rfl,
   C3_failed_retry_gating.2.1 _ false rfl,
   C3_failed_retry_gating.2.2.1 _ false rfl,
   C3_failed_retry_gating.2.2.2.1 _ _ false (by decide),
   C3_failed_retry_gating.2.2.2.1 _ _ true (by decide)⟩

/-- Claim C5: `StateManager.mark_as_failed` is claimed to terminate
normally and write `status=failed` with `error`, `error_code` and
`failed_at`.  In fact it constructs
`ErrorInfo(message=..., code=..., timestamp=...)` while the `ErrorInfo`
dataclass (src/models.py:149-161) has fields `error`, `error_code`,
`failed_at`, so every call raises `TypeError` and nothing is written. -/
theorem C5_mark_as_failed_raises_type_error :
    ∀ (fs : FS) (filepath error error_code now : String),
      StateManager.mark_as_failed fs filepath error error_code now =
        .error (.typeError "TypeError: ErrorInfo got unexpected or missing keyword arguments") := by
  intro fs filepath error error_code now
  rfl

theorem call_gemini_go_quota_step (maxR base t : Nat) (oracle : Nat → AttemptResult)
    (attempt fuel : Nat) (rc : Int) (stderr : String)
    (hq : isQuotaStderr stderr = true) (ho : oracle attempt = .failure rc stderr)
    (hlt : attempt < maxR) :
    GeminiCLIProvider.call_gemini_go maxR base t oracle attempt (fuel + 1) =
      ((GeminiCLIProvider.call_gemini_go maxR base t oracle (attempt + 1) fuel).1,
        min (base * 2 ^ (attempt - 1)) 60 ::
          (GeminiCLIProvider.call_gemini_go maxR base t oracle (attempt + 1) fuel).2) := by
  simp [GeminiCLIProvider.call_gemini_go, ho, hq, hlt]

theorem call_gemini_go_quota_last (maxR base t : Nat) (oracle : Nat → AttemptResult)
    (fuel : Nat) (rc : Int) (stderr : String)
    (hq : isQuotaStderr stderr = true) (ho : oracle maxR = .failure rc stderr) :
    GeminiCLIProvider.call_gemini_go maxR base t oracle maxR (fuel + 1) =
      (.error (.rateLimitError none), []) := by
  simp [GeminiCLIProvider.call_gemini_go, ho, hq, Nat.lt_irrefl]

/-- Claim C7: with a quota/rate-limit marker in stderr on every attempt and
the default `max_retries = 3`, the provider sleeps
`min(base * 2^(attempt-1), 60)` between attempts (delays `base*1`,
`base*2`) and then raises the distinct rate-limit failure — but its
`retry_after` hint is `None`, not the claimed non-null hint: at the raise
site `attempt < max_retries` is always false, so
`delay if attempt < self.max_retries else None` always yields `None`. -/
theorem C7_quota_exhaustion_rate_limit :
    ∀ (base : Nat) (rc : Int) (stderr : String) (oracle : Nat → AttemptResult),
      isQuotaStderr stderr = true →
      (∀ n, oracle n = .failure rc stderr) →
      GeminiCLIProvider.call_gemini_with_streaming 3 base 300 oracle =
        (.error (.rateLimitError none), [min base 60, min (base * 2) 60]) := by
  intro base rc stderr oracle hq ho
  have e1 := call_gemini_go_quota_step 3 base 300 oracle 1 2 rc stderr hq (ho 1) (by decide)
  have e2 := call_gemini_go_quota_step 3 base 300 oracle 2 1 rc stderr hq (ho 2) (by decide)
  have e3 := call_gemini_go_quota_last 3 base 300 oracle 0 rc stderr hq (ho 3)
  norm_num at e1 e2 e3
  unfold GeminiCLIProvider.call_gemini_with_streaming
  rw [e1, e2, e3]

/-- Witness for C7 at a concrete quota-exhausted run with the default
configuration (`max_retries = 3`, `initial_retry_delay = 3`). -/
theorem C7_quota_exhaustion_rate_limit_witness :
    GeminiCLIProvider.call_gemini_with_streaming 3 3 300
      (fun _ => .failure 1 "You have exhausted your capacity.") =
      (.error (.rateLimitError none), [3, 6]) := by
  have h := C7_quota_exhaustion_rate_limit 3 1 "You have exhausted your capacity."
    (fun _ => .failure 1 "You have exhausted your capacity.") (by decide) (fun _ => rfl)
  rw [h]
  norm_num

/-- Claim C9: a `status` value that is not one of the four recognized
strings reads as `None` (never raises): at the public interface the file is
indistinguishable from one with no status at all, is classified NEW
(`should_retry = true`, `is_processed = false`), and is re-admitted by the
filter when the word count suffices.  The same holds for the file-level
reader `FrontmatterReader.read_status`. -/
theorem C9_unrecognized_status_reads_none :
    ∀ (s : String), s ≠ "pending" → s ≠ "approved" → s ≠ "uploaded" → s ≠ "failed" →
    (∀ (fm : Dict), dictGet fm "status" = some (.str s) →
      StatusChecker.get_status fm = none ∧
      StatusChecker.get_status fm =
        StatusChecker.get_status (fm.filter (fun p => !(p.1 = "status"))) ∧
      StatusChecker.is_processed fm = false ∧
      (∀ force, StatusChecker.should_retry fm force = true) ∧
      (∀ (min_word_count : Int) (md : TranscriptMetadata),
        ¬ md.word_count < min_word_count →
        FileFilter.should_process min_word_count md fm = (true, none))) ∧
    (∀ (fs : FS) (path content : String) (fm : Dict) (body : String),
      fsRead fs path = some content →
      FrontmatterParser.parse content = .ok (fm, body) →
      dictGet fm "status" = some (.str s) →
      FrontmatterReader.read_status fs path = none) := by
  intro s h1 h2 h3 h4
  have hps : pipelineStatusOf s = none := by
    simp [pipelineStatusOf, h1, h2, h3, h4]
  constructor
  · intro fm hfm
    have hgs : StatusChecker.get_status fm = none := by
      by_cases hs : s = ""
      · simp [StatusChecker.get_status, hfm, yamlTruthy, hs]
      · simp [StatusChecker.get_status, hfm, yamlTruthy, hs, hps]
    refine ⟨hgs, ?_, ?_, ?_, ?_⟩
    · rw [hgs]
      simp [StatusChecker.get_status, dictGet_removeKey fm "status"]
    · simp [StatusChecker.is_processed, hgs]
    · intro force
      simp [StatusChecker.should_retry, hgs]
    · intro min_word_count md hw
      simp [FileFilter.should_process, StatusChecker.is_processed, hgs, hw]
  · intro fs path content fm body hr hp hfm
    by_cases hs : s = ""
    · simp [FrontmatterReader.read_status, FrontmatterReader.read, hr, hp, hfm,
        yamlTruthy, hs]
    · simp [FrontmatterReader.read_status, FrontmatterReader.read, hr, hp, hfm,
        yamlTruthy, hs, hps]

/-- Witness for C9 with the unrecognized status value `"done"`. -/
theorem C9_unrecognized_status_reads_none_witness :
    StatusChecker.get_status [("status", .str "done"), ("word_count", .int 500)] = none ∧
    StatusChecker.should_retry [("status", .str "done"), ("word_count", .int 500)] false = true ∧
    FileFilter.should_process 100
      { channel := .str "B", video_id := .str "v", title := .str "T",
        published_at := ⟨2026, 2, 5⟩, duration := .str "", word_count := 500 }
      [("status", .str "done"), ("word_count", .int 500)] = (true, none) ∧
    FrontmatterReader.read_status [("f.md", "---\nstatus: done\n---\n\nbody")] "f.md" = none := by
  have h := C9_unrecognized_status_reads_none "done" (by decide) (by decide) (by decide) (by decide)
  have h1 := h.1 [("status", .str "done"), ("word_count", .int 500)] rfl
  refine ⟨h1.1, h1.2.2.2.1 false, h1.2.2.2.2 100 _ (by decide), ?_⟩
  exact h.2 _ "f.md" _ [("status", .str "done")] "body" rfl rfl rfl

/-- Claim C10: discovery excludes every successfully parsed file whose
word count is below the configured minimum, even when its header status is
absent, so the admitted set is not a function of the header status alone:
two files with identically absent status but different word counts are
admitted differently. -/
theorem C10_word_count_minimum_filters :
    (∀ (min_word_count : Int) (wl bl : Option (List String)) (fb : String → Option String)
        (p c : String) (fm : Dict) (body : String) (md : TranscriptMetadata),
      FrontmatterParser.parse c = .ok (fm, body) →
      TranscriptMetadataExtractor.extract fb fm p = .ok md →
      md.word_count < min_word_count →
      (∀ t, DiscoveryService.discover_step min_word_count wl bl fb (p, c) ≠ .ready t) ∧
      DiscoveryService.discover [(p, c)] min_word_count wl bl fb = []) ∧
    (StatusChecker.get_status [("channel", .str "B"), ("video_id", .str "vvvvvvvvvvv"),
        ("title", .str "T"), ("published_at", .date 2026 2 5), ("word_count", .int 50)] = none ∧
     StatusChecker.get_status [("channel", .str "B"), ("video_id", .str "vvvvvvvvvvv"),
        ("title", .str "T"), ("published_at", .date 2026 2 5), ("word_count", .int 500)] = none ∧
     DiscoveryService.discover
       [("t/low.md", "---\nchannel: B\nvideo_id: vvvvvvvvvvv\ntitle: T\npublished_at: 2026-02-05\nword_count: 50\n---\n\nbody")]
       100 none none (fun _ => none) = [] ∧
     DiscoveryService.discover
       [("t/high.md", "---\nchannel: B\nvideo_id: vvvvvvvvvvv\ntitle: T\npublished_at: 2026-02-05\nword_count: 500\n---\n\nbody")]
       100 none none (fun _ => none) ≠ []) := by
  constructor
  · intro min_word_count wl bl fb p c fm body md hp he hw
    have hnr : ∀ t, DiscoveryService.discover_step min_word_count wl bl fb (p, c) ≠ .ready t := by
      intro t
      by_cases hproc : StatusChecker.is_processed fm
      · simp only [DiscoveryService.discover_step, hp, he, FileFilter.should_process, hproc,
          if_true, Bool.not_false]
        exact fun hcon => classifyReason_ne_ready _ t (by simpa using hcon)
      · simp only [DiscoveryService.discover_step, hp, he, FileFilter.should_process, hproc,
          if_false, hw, if_true, Bool.not_false]
        exact fun hcon => classifyReason_ne_ready _ t (by simpa using hcon)
    refine ⟨hnr, ?_⟩
    cases hds : DiscoveryService.discover_step min_word_count wl bl fb (p, c) with
    | ready t => exact absurd hds (hnr t)
    | parseFailed => simp [DiscoveryService.discover, hds]
    | filteredStatus => simp [DiscoveryService.discover, hds]
    | filteredWordCount => simp [DiscoveryService.discover, hds]
    | filteredOther => simp [DiscoveryService.discover, hds]
    | filteredChannel => simp [DiscoveryService.discover, hds]
  · refine ⟨rfl, rfl, ?_, ?_⟩
    · rfl
    · decide

/-- Witness for C10 applying the general filter statement at the concrete
low-word-count file. -/
theorem C10_word_count_minimum_filters_witness :
    DiscoveryService.discover
      [("t/low.md", "---\nchannel: B\nvideo_id: vvvvvvvvvvv\ntitle: T\npublished_at: 2026-02-05\nword_count: 50\n---\n\nbody")]
      100 none none (fun _ => none) = [] := by
  refine (C10_word_count_minimum_filters.1 100 none none (fun _ => none)
    "t/low.md"
    "---\nchannel: B\nvideo_id: vvvvvvvvvvv\ntitle: T\npublished_at: 2026-02-05\nword_count: 50\n---\n\nbody"
    [("channel", .str "B"), ("video_id", .str "vvvvvvvvvvv"), ("title", .str "T"),
     ("published_at", .date 2026 2 5), ("word_count", .int 50)]
    "body"
    { channel := .str "B", video_id := .str "vvvvvvvvvvv", title := .str "T",
      published_at := ⟨2026, 2, 5⟩, duration := .str "", word_count := 50 }
    rfl rfl (by decide)).2

theorem discover_step_processed_not_ready (min_word_count : Int)
    (wl bl : Option (List String)) (fb : String → Option String)
    (p c : String) (fm : Dict) (body : String) (s : PipelineStatus)
    (hp : FrontmatterParser.parse c = .ok (fm, body))
    (hgs : StatusChecker.get_status fm = some s)
    (hs : s = .pending ∨ s = .approved ∨ s = .uploaded) :
    ∀ t, DiscoveryService.discover_step min_word_count wl bl fb (p, c) ≠ .ready t := by
  intro t
  have hproc : StatusChecker.is_processed fm = true := by
    rcases hs with h | h | h <;> simp [StatusChecker.is_processed, hgs, h]
  cases he : TranscriptMetadataExtractor.extract fb fm p with
  | error e => simp [DiscoveryService.discover_step, hp, he]
  | ok md =>
    simp only [DiscoveryService.discover_step, hp, he, FileFilter.should_process, hproc,
      if_true, Bool.not_false]
    exact fun hcon => classifyReason_ne_ready _ t (by simpa using hcon)

/-- Claim C2 (amended): a parsed header status of pending, approved or
uploaded keeps a file out of discovery's admitted set, and a tree
consisting of such files yields an empty admitted set on any run — but the
upload step does not consult the header status: it invokes the external
upload for every loadable `*_analyzed.md` file found under the pending
directory, so re-invoking it on a path still in that directory whose
header reads `uploaded` does perform an external call.  At-most-once for
the upload step rests on the file having been relocated out of the pending
directory, not on the eligibility filter. -/
theorem C2_processed_excluded_upload_recalls :
    (∀ (min_word_count : Int) (wl bl : Option (List String)) (fb : String → Option String)
        (p c : String) (fm : Dict) (body : String) (s : PipelineStatus),
      FrontmatterParser.parse c = .ok (fm, body) →
      StatusChecker.get_status fm = some s →
      s = .pending ∨ s = .approved ∨ s = .uploaded →
      ∀ t, DiscoveryService.discover_step min_word_count wl bl fb (p, c) ≠ .ready t) ∧
    (∀ (tree : List (String × String)) (min_word_count : Int)
        (wl bl : Option (List String)) (fb : String → Option String),
      (∀ f ∈ tree, ∃ fm body s, FrontmatterParser.parse f.2 = .ok (fm, body) ∧
        StatusChecker.get_status fm = some s ∧
        (s = .pending ∨ s = .approved ∨ s = .uploaded)) →
      DiscoveryService.discover tree min_word_count wl bl fb = []) ∧
    (∀ (files : List (String × String)) (p c : String) (fm : Dict) (body : String),
      (p, c) ∈ files →
      pyEndsWith p "_analyzed.md" = true →
      FrontmatterParser.parse c = .ok (fm, body) →
      StatePersistence.load_analyzed_check fm = .ok () →
      p ∈ Main.run_upload_external_calls files) := by
  refine ⟨discover_step_processed_not_ready, ?_, ?_⟩
  · intro tree min_word_count wl bl fb hall
    unfold DiscoveryService.discover
    rw [List.filterMap_eq_nil_iff]
    intro f hf
    obtain ⟨fm, body, s, hp, hgs, hs⟩ := hall f hf
    have hnr := discover_step_processed_not_ready min_word_count wl bl fb f.1 f.2 fm body s
      hp hgs hs
    cases hds : DiscoveryService.discover_step min_word_count wl bl fb (f.1, f.2) with
    | ready t => exact absurd hds (hnr t)
    | parseFailed => simp [hds]
    | filteredStatus => simp [hds]
    | filteredWordCount => simp [hds]
    | filteredOther => simp [hds]
    | filteredChannel => simp [hds]
  · intro files p c fm body hmem hends hp hl
    unfold Main.run_upload_external_calls
    refine List.mem_filterMap.mpr ⟨(p, c), hmem, ?_⟩
    simp [hends, hp, hl]

set_option maxRecDepth 8192 in
/-- Counterexample to C2 as stated: a file still under the pending
directory whose header already reads `uploaded` receives another external
upload call when the upload step is re-invoked. -/
theorem C2_uploaded_header_reupload_counterexample :
    FrontmatterParser.parse
        "---\nchannel: B\nvideo_id: v\ntitle: T\npublished_at: 2026-02-05\nsemantic_summary: s\nstatus: uploaded\nsource_id: x1\n---\n\nbody" =
      .ok ([("channel", .str "B"), ("video_id", .str "v"), ("title", .str "T"),
            ("published_at", .date 2026 2 5), ("semantic_summary", .str "s"),
            ("status", .str "uploaded"), ("source_id", .str "x1")], "body") ∧
    StatusChecker.get_status
        [("channel", .str "B"), ("video_id", .str "v"), ("title", .str "T"),
         ("published_at", .date 2026 2 5), ("semantic_summary", .str "s"),
         ("status", .str "uploaded"), ("source_id", .str "x1")] = some .uploaded ∧
    Main.run_upload_external_calls
        [("pending/B/2026-02/a_analyzed.md",
          "---\nchannel: B\nvideo_id: v\ntitle: T\npublished_at: 2026-02-05\nsemantic_summary: s\nstatus: uploaded\nsource_id: x1\n---\n\nbody")] =
      ["pending/B/2026-02/a_analyzed.md"] :=
  ⟨rfl, rfl, rfl⟩

set_option maxRecDepth 8192 in
/-- Witness for C2 at a concrete uploaded-status file: excluded by
discovery, yet called again by the upload step. -/
theorem C2_processed_excluded_upload_recalls_witness :
    DiscoveryService.discover
        [("t/up.md", "---\nchannel: B\nvideo_id: vvvvvvvvvvv\ntitle: T\npublished_at: 2026-02-05\nword_count: 500\nstatus: uploaded\n---\n\nbody")]
        100 none none (fun _ => none) = [] ∧
    "pending/B/2026-02/b_analyzed.md" ∈ Main.run_upload_external_calls
        [("pending/B/2026-02/b_analyzed.md",
          "---\nchannel: B\nvideo_id: v\ntitle: T\npublished_at: 2026-02-05\nsemantic_summary: s\nstatus: uploaded\n---\n\nbody")] := by
  constructor
  · refine C2_processed_excluded_upload_recalls.2.1 _ 100 none none (fun _ => none) ?_
    intro f hf
    rw [List.mem_singleton] at hf
    subst hf
    exact ⟨[("channel", .str "B"), ("video_id", .str "vvvvvvvvvvv"), ("title", .str "T"),
            ("published_at", .date 2026 2 5), ("word_count", .int 500),
            ("status", .str "uploaded")], "body", .uploaded, rfl, rfl, Or.inr (Or.inr rfl)⟩
  · refine C2_processed_excluded_upload_recalls.2.2 _ _
      "---\nchannel: B\nvideo_id: v\ntitle: T\npublished_at: 2026-02-05\nsemantic_summary: s\nstatus: uploaded\n---\n\nbody"
      [("channel", .str "B"), ("video_id", .str "v"), ("title", .str "T"),
       ("published_at", .date 2026 2 5), ("semantic_summary", .str "s"),
       ("status", .str "uploaded")] "body" (List.mem_singleton.mpr rfl) (by decide) rfl rfl

theorem should_retry_some_eq (r : FixedDelayRetry) (code : Int) (attempt : Nat)
    (ha : ¬ attempt ≥ r.max_attempts) :
    FixedDelayRetry.should_retry r (some code) attempt =
      (is5xxTruthy code || decide (code = 429)) := by
  by_cases hx : is5xxTruthy code
  · simp [FixedDelayRetry.should_retry, ha, hx]
  · by_cases h429 : code = 429
    · simp [FixedDelayRetry.should_retry, ha, hx, h429]
    · simp [FixedDelayRetry.should_retry, ha, hx, h429]

/-- Claim C8 (amended): below `max_attempts`, `should_retry` is true
exactly on 5xx, 429 and absent status (connection-level timeout), and
`get_delay` is the same constant for every attempt; a non-retryable 4xx is
surfaced immediately without retries — a generic 4xx (e.g. 400, 403) as an
`APIError` carrying the originating status code, while 401 and 404 are
mapped to dedicated typed errors whose `status_code` attribute is `None`.
The `[503, 503, 200]` scenario performs two constant delays and then
succeeds. -/
theorem C8_fixed_delay_retry_policy :
    (∀ (r : FixedDelayRetry) (sc : Option Int) (attempt : Nat),
      attempt < r.max_attempts →
      (FixedDelayRetry.should_retry r sc attempt = true ↔
        (∃ code, sc = some code ∧ 500 ≤ code ∧ code < 600) ∨ sc = some 429 ∨ sc = none)) ∧
    (∀ (r : FixedDelayRetry) (attempt : Nat), FixedDelayRetry.get_delay r attempt = r.delay) ∧
    (∀ (r : FixedDelayRetry) (endpoint : String) (oracle : Nat → HttpResp)
        (code : Int) (body : String),
      1 ≤ r.max_attempts →
      oracle 1 = .resp code body →
      400 ≤ code → code < 500 → code ≠ 401 → code ≠ 404 → code ≠ 429 →
      OpenNotebookClient.make_request r endpoint oracle =
        (.error (.apiError ("API 錯誤: " ++ toString code) (some code)), [])) ∧
    (∀ (r : FixedDelayRetry) (endpoint : String) (oracle : Nat → HttpResp) (body : String),
      1 ≤ r.max_attempts →
      oracle 1 = .resp 401 body →
      OpenNotebookClient.make_request r endpoint oracle =
        (.error (.authenticationError none), [])) ∧
    (∀ (r : FixedDelayRetry) (endpoint : String) (oracle : Nat → HttpResp) (body : String),
      1 ≤ r.max_attempts →
      oracle 1 = .resp 404 body →
      containsSub (pyLower endpoint) "notebook" = false →
      OpenNotebookClient.make_request r endpoint oracle =
        (.error (.sourceNotFoundError none), [])) ∧
    (OpenNotebookClient.make_request ⟨3, 5⟩ "/api/sources/json"
      (fun a => if a ≤ 2 then .resp 503 "" else .resp 200 "ok") = (.ok "ok", [5, 5])) := by
  refine ⟨?_, fun r attempt => rfl, ?_, ?_, ?_, rfl⟩
  · intro r sc attempt ha
    have hna : ¬ attempt ≥ r.max_attempts := by omega
    cases sc with
    | none => simp [FixedDelayRetry.should_retry, hna]
    | some code =>
      rw [should_retry_some_eq r code attempt hna]
      simp only [Bool.or_eq_true, decide_eq_true_eq, Option.some.injEq, reduceCtorEq,
        or_false]
      constructor
      · rintro (h | h)
        · unfold is5xxTruthy at h
          simp only [Bool.and_eq_true, decide_eq_true_eq] at h
          exact Or.inl ⟨code, rfl, h.1.2, h.2⟩
        · exact Or.inr h
      · rintro (⟨c, hc, h1, h2⟩ | h)
        · cases hc
          refine Or.inl ?_
          unfold is5xxTruthy
          simp only [Bool.and_eq_true, decide_eq_true_eq]
          exact ⟨⟨by omega, h1⟩, h2⟩
        · exact Or.inr h
  · intro r endpoint oracle code body hmax ho h4a h4b hn1 hn4 hn9
    have hsr : FixedDelayRetry.should_retry r (some code) 1 = false := by
      by_cases h1 : 1 ≥ r.max_attempts
      · simp [FixedDelayRetry.should_retry, h1]
      · rw [should_retry_some_eq r code 1 h1]
        simp [is5xxTruthy, hn9, show ¬(500 ≤ code) by omega]
    obtain ⟨fuel, hf⟩ : ∃ f, r.max_attempts = f + 1 := ⟨r.max_attempts - 1, by omega⟩
    unfold OpenNotebookClient.make_request
    rw [hf]
    simp [OpenNotebookClient.make_request_go, ho, hsr,
      show ¬ code = 200 by omega, show ¬ code = 201 by omega, hn1, hn4, hn9]
  · intro r endpoint oracle body hmax ho
    obtain ⟨fuel, hf⟩ : ∃ f, r.max_attempts = f + 1 := ⟨r.max_attempts - 1, by omega⟩
    unfold OpenNotebookClient.make_request
    rw [hf]
    simp [OpenNotebookClient.make_request_go, ho]
  · intro r endpoint oracle body hmax ho hnb
    obtain ⟨fuel, hf⟩ : ∃ f, r.max_attempts = f + 1 := ⟨r.max_attempts - 1, by omega⟩
    unfold OpenNotebookClient.make_request
    rw [hf]
    simp [OpenNotebookClient.make_request_go, ho, hnb]

/-- Counterexample to C8 as stated: a 401 response (another 4xx) is
surfaced immediately, but as an `AuthenticationError` whose `status_code`
attribute is `None` — the originating status code is not attached. -/
theorem C8_status_code_not_attached_counterexample :
    OpenNotebookClient.make_request ⟨3, 5⟩ "/api/sources/json" (fun _ => .resp 401 "") =
      (.error (.authenticationError none), []) ∧
    APIErr.status_code (.authenticationError none) = none :=
  ⟨rfl, rfl⟩

/-- Witness for C8 at concrete inputs. -/
theorem C8_fixed_delay_retry_policy_witness :
    FixedDelayRetry.should_retry ⟨3, 5⟩ (some 503) 1 = true ∧
    FixedDelayRetry.should_retry ⟨3, 5⟩ (some 429) 2 = true ∧
    FixedDelayRetry.should_retry ⟨3, 5⟩ none 1 = true ∧
    FixedDelayRetry.get_delay ⟨3, 5⟩ 2 = 5 ∧
    OpenNotebookClient.make_request ⟨3, 5⟩ "/api/sources/json" (fun _ => .resp 403 "no") =
      (.error (.apiError ("API 錯誤: " ++ toString (403 : Int)) (some 403)), []) := by
  refine ⟨?_, ?_, ?_, C8_fixed_delay_retry_policy.2.1 ⟨3, 5⟩ 2, ?_⟩
  · exact (C8_fixed_delay_retry_policy.1 ⟨3, 5⟩ (some 503) 1 (by decide)).mpr
      (Or.inl ⟨503, rfl, by decide, by decide⟩)
  · exact (C8_fixed_delay_retry_policy.1 ⟨3, 5⟩ (some 429) 2 (by decide)).mpr
      (Or.inr (Or.inl rfl))
  · exact (C8_fixed_delay_retry_policy.1 ⟨3, 5⟩ none 1 (by decide)).mpr
      (Or.inr (Or.inr rfl))
  · exact C8_fixed_delay_retry_policy.2.2.1 ⟨3, 5⟩ "/api/sources/json" _ 403 "no"
      (by decide) rfl (by decide) (by decide) (by decide) (by decide) (by decide)

/-- Claim C6 (amended): the Ledger Codec read raises the corrupt-ledger
error exactly when a properly terminated header block contains invalid
YAML; it returns an empty header (not an error) both when no opening
delimiter is present and when an opening delimiter has no terminating
delimiter, yielding the whole stripped content as the body in both
cases. -/
theorem C6_parse_error_exactly_on_bad_yaml :
    ∀ (content : String),
      (pyStartsWith (pyStrip content) "---" = false →
        FrontmatterParser.parse content = .ok ([], pyStrip content)) ∧
      (pyStartsWith (pyStrip content) "---" = true →
        pyFindFrom (pyStrip content) "\n---" 3 = none →
        FrontmatterParser.parse content = .ok ([], pyStrip content)) ∧
      ((∃ e, FrontmatterParser.parse content = .error e) ↔
        ∃ i, pyStartsWith (pyStrip content) "---" = true ∧
          pyFindFrom (pyStrip content) "\n---" 3 = some i ∧
          ∃ e2, yamlLoad (pyStrip (pySlice (pyStrip content) 3 i)) = .error e2) := by
  intro content
  refine ⟨?_, ?_, ?_⟩
  · intro h
    simp [FrontmatterParser.parse, h]
  · intro h1 h2
    simp [FrontmatterParser.parse, h1, h2]
  · by_cases h1 : pyStartsWith (pyStrip content) "---" = true
    · cases h2 : pyFindFrom (pyStrip content) "\n---" 3 with
      | none => simp [FrontmatterParser.parse, h1, h2]
      | some i =>
        cases h3 : yamlLoad (pyStrip (pySlice (pyStrip content) 3 i)) with
        | error e => simp [FrontmatterParser.parse, h1, h2, h3]
        | ok fm => simp [FrontmatterParser.parse, h1, h2, h3]
    · have h1f : pyStartsWith (pyStrip content) "---" = false :=
        Bool.not_eq_true _ ▸ (Bool.eq_false_iff.mpr (fun hc => h1 hc))
      simp [FrontmatterParser.parse, h1f, h1]

/-- Counterexample to C6 as stated: an opening delimiter whose terminating
delimiter is missing is treated as "no header" — the parse succeeds with
an empty header and the entire content as body, instead of failing with a
corrupt-ledger error. -/
theorem C6_unterminated_header_no_error_counterexample :
    pyStartsWith (pyStrip "---\nstatus: pending") "---" = true ∧
    pyFindFrom (pyStrip "---\nstatus: pending") "\n---" 3 = none ∧
    FrontmatterParser.parse "---\nstatus: pending" = .ok ([], "---\nstatus: pending") :=
  ⟨rfl, rfl, rfl⟩

/-- Witness for C6: a file with no header block parses to an empty header,
and invalid YAML inside a terminated block is an error. -/
theorem C6_parse_error_exactly_on_bad_yaml_witness :
    FrontmatterParser.parse "no header here" = .ok ([], "no header here") ∧
    (∃ e, FrontmatterParser.parse "---\nkey: [broken\n---\n\nbody" = .error e) := by
  constructor
  · exact (C6_parse_error_exactly_on_bad_yaml "no header here").1 (by decide)
  · exact (C6_parse_error_exactly_on_bad_yaml "---\nkey: [broken\n---\n\nbody").2.2.mpr
      ⟨16, rfl, rfl, "unterminated flow sequence", rfl⟩

/-- Claim C1 (amended): `FrontmatterWriter.write` performs read-merge-write
and then commits the merged content with a single direct write to the
target path — no temporary file and no rename.  A completed write leaves
the full new content readable, while a write aborted after `k` characters
leaves exactly the `k`-character prefix on disk. -/
theorem C1_write_single_direct_overwrite :
    ∀ (fs : FS) (filepath content nc : String) (updates : Dict),
      fsRead fs filepath = some content →
      FrontmatterWriter.new_content content updates = .ok nc →
      FrontmatterWriter.write_ops fs filepath updates = .ok [.write filepath nc] ∧
      FrontmatterWriter.write fs filepath updates = .ok (fsWrite fs filepath nc) ∧
      fsRead (runFsOps fs [.write filepath nc]) filepath = some nc ∧
      (∀ k, fsRead (runFsOpsCrash fs [.write filepath nc] 0 k) filepath =
        some (pyTakeChars nc k)) := by
  intro fs p c nc updates hr hn
  have hops : FrontmatterWriter.write_ops fs p updates = .ok [.write p nc] := by
    simp [FrontmatterWriter.write_ops, hr, hn]
  refine ⟨hops, ?_, ?_, ?_⟩
  · simp [FrontmatterWriter.write, hops, runFsOps, applyFsOp]
  · simp [runFsOps, applyFsOp, fsRead_fsWrite_self]
  · intro k
    simp [runFsOpsCrash, runFsOps, applyFsOpPartial, fsRead_fsWrite_self]

set_option maxRecDepth 8192 in
/-- Counterexample to C1 as stated: the write is a single direct overwrite
of the target (no temporary path, no rename), and a crash after 10
characters leaves a file that is neither the complete old content nor the
complete new content. -/
theorem C1_crash_leaves_partial_file_counterexample :
    FrontmatterWriter.write_ops
        [("f.md", "---\nchannel: Bankless\nstatus: pending\n---\n\nbody text")]
        "f.md" [("status", .str "uploaded")] =
      .ok [.write "f.md" "---\nchannel: Bankless\nstatus: uploaded\n---\n\nbody text"] ∧
    fsRead (runFsOpsCrash
        [("f.md", "---\nchannel: Bankless\nstatus: pending\n---\n\nbody text")]
        [.write "f.md" "---\nchannel: Bankless\nstatus: uploaded\n---\n\nbody text"] 0 10)
        "f.md" = some "---\nchanne" ∧
    ("---\nchanne" : String) ≠ "---\nchannel: Bankless\nstatus: pending\n---\n\nbody text" ∧
    ("---\nchanne" : String) ≠ "---\nchannel: Bankless\nstatus: uploaded\n---\n\nbody text" :=
  ⟨rfl, rfl, by decide, by decide⟩

set_option maxRecDepth 8192 in
/-- Witness for C1 applying the direct-overwrite theorem at a concrete
file and update map. -/
theorem C1_write_single_direct_overwrite_witness :
    FrontmatterWriter.write
        [("f.md", "---\nchannel: Bankless\nstatus: pending\n---\n\nbody text")]
        "f.md" [("status", .str "uploaded")] =
      .ok (fsWrite [("f.md", "---\nchannel: Bankless\nstatus: pending\n---\n\nbody text")]
        "f.md" "---\nchannel: Bankless\nstatus: uploaded\n---\n\nbody text") :=
  (C1_write_single_direct_overwrite
    [("f.md", "---\nchannel: Bankless\nstatus: pending\n---\n\nbody text")]
    "f.md" "---\nchannel: Bankless\nstatus: pending\n---\n\nbody text"
    "---\nchannel: Bankless\nstatus: uploaded\n---\n\nbody text"
    [("status", .str "uploaded")] rfl rfl).2.1

/-! ### Character-level lemmas for the round-trip proof -/

theorem length_chDropWs_le (l : List Char) : (chDropWs l).length ≤ l.length := by
  induction l with
  | nil => simp [chDropWs]
  | cons c l ih =>
    by_cases h : isWs c
    · simp only [chDropWs, List.dropWhile, h] at ih ⊢
      simp only [List.length_cons]
      omega
    · simp [chDropWs, List.dropWhile, h]

theorem length_chTrim_le (l : List Char) : (chTrim l).length ≤ l.length := by
  have h1 := length_chDropWs_le l
  have h2 := length_chDropWs_le (chDropWs l).reverse
  simp only [chTrim]
  simp only [chDropWs] at h1 h2 ⊢
  simp only [List.length_reverse] at h2 ⊢
  omega

theorem chTrim_cons_ws (c : Char) (l : List Char) (h : isWs c = true) :
    chTrim (c :: l) = chTrim l := by
  simp [chTrim, chDropWs, List.dropWhile, h]

theorem chTrim_append_ws (l : List Char) (c : Char) (h : isWs c = true) :
    chTrim (l ++ [c]) = chTrim l := by
  by_cases he : (List.dropWhile isWs l).isEmpty
  · simp only [chTrim, chDropWs, List.dropWhile_append, he, if_true]
    simp only [List.isEmpty_iff] at he
    simp [he, List.dropWhile, h]
  · simp only [chTrim, chDropWs, List.dropWhile_append, he, if_false]
    simp [List.dropWhile, h]

theorem head_not_ws_of_chTrim_self (c : Char) (l : List Char)
    (h : chTrim (c :: l) = c :: l) : isWs c = false := by
  by_cases hws : isWs c
  · exfalso
    have h2 : chTrim (c :: l) = chTrim l := chTrim_cons_ws c l hws
    have h3 := length_chTrim_le l
    rw [h] at h2
    have h4 : (c :: l).length = l.length + 1 := by simp
    rw [← h2] at h3
    omega
  · simpa using hws

theorem getLast_not_ws_of_chTrim_self (l : List Char) (h : chTrim l = l)
    (c : Char) (hc : l.getLast? = some c) : isWs c = false := by
  by_cases hws : isWs c
  · exfalso
    have hdec : l.dropLast ++ [c] = l := List.dropLast_append_getLast? c hc
    have h2 : chTrim (l.dropLast ++ [c]) = chTrim l.dropLast :=
      chTrim_append_ws l.dropLast c hws
    rw [hdec, h] at h2
    have h3 := length_chTrim_le l.dropLast
    rw [← h2] at h3
    have h4 : l.length = l.dropLast.length + 1 := by
      rw [← hdec]; simp
    omega
  · simpa using hws

theorem chTrim_eq_self_of (l : List Char)
    (hh : ∀ c, l.head? = some c → isWs c = false)
    (hl : ∀ c, l.getLast? = some c → isWs c = false) : chTrim l = l := by
  cases l with
  | nil => rfl
  | cons c t =>
    have hc : isWs c = false := hh c rfl
    have hfront : chDropWs (c :: t) = c :: t := by
      simp [chDropWs, List.dropWhile, hc]
    cases hrev : (c :: t).reverse with
    | nil => exact absurd hrev (by simp)
    | cons y ys =>
      have hy : (c :: t).getLast? = some y := by
        rw [← List.head?_reverse, hrev]; rfl
      have hyws : isWs y = false := hl y hy
      simp only [chTrim, hfront, hrev]
      simp [List.dropWhile, hyws, ← hrev]

theorem chFind_skip (xs ys pat : List Char) (c0 : Char) (rest0 : List Char)
    (hp : pat = c0 :: rest0) (hxs : ∀ x ∈ xs, x ≠ c0) :
    chFind (xs ++ ys) pat = (chFind ys pat).map (· + xs.length) := by
  induction xs with
  | nil =>
    cases h : chFind ys pat <;> simp [h]
  | cons x xs ih =>
    have hx : x ≠ c0 := hxs x (by simp)
    have hpre : pat.isPrefixOf (x :: (xs ++ ys)) = false := by
      subst hp
      have hbe : (c0 == x) = false := beq_eq_false_iff_ne.mpr (Ne.symm hx)
      simp [List.isPrefixOf, hbe]
    simp only [List.cons_append, chFind, hpre, Bool.false_eq_true, if_false, List.append_eq]
    rw [ih (fun z hz => hxs z (by simp [hz]))]
    cases h : chFind ys pat with
    | none => simp [h]
    | some a => simp [h]; omega

theorem toList_eq_nil_iff (s : String) : s.toList = [] ↔ s = "" := by
  constructor
  · intro h
    cases s with
    | mk data =>
      simp only [String.toList] at h
      subst h
      rfl
  · intro h
    subst h
    rfl

theorem wfKeyStr_spec (k : String) (hk : wfKeyStr k = true) :
    k.toList ≠ [] ∧ (∀ c ∈ k.toList, c ≠ '\n') ∧ (∀ c ∈ k.toList, c ≠ ':') ∧
    k.toList.head? ≠ some '-' ∧ chTrim k.toList = k.toList := by
  simp only [wfKeyStr, Bool.and_eq_true, List.all_eq_true, Bool.not_eq_true,
    decide_eq_true_eq, decide_eq_false_iff_not] at hk
  obtain ⟨⟨⟨h1, h2⟩, h3⟩, h4⟩ := hk
  refine ⟨?_, ?_, ?_, ?_, h4⟩
  · intro h
    rw [toList_eq_nil_iff] at h
    simp [h] at h1
  · intro c hc
    have := h2 c hc
    simp only [Bool.and_eq_true] at this
    simpa using this.1
  · intro c hc
    have := h2 c hc
    simp only [Bool.and_eq_true] at this
    simpa using this.2
  · simpa using h3

theorem wfValStr_spec (v : YamlValue) (hv : wfValStr v = true) :
    (renderScalar v).toList ≠ [] ∧ (∀ c ∈ (renderScalar v).toList, c ≠ '\n') ∧
    chTrim (renderScalar v).toList = (renderScalar v).toList ∧
    parseScalar (renderScalar v) = v ∧
    (pyStartsWith (renderScalar v) "[" = true → containsSub (renderScalar v) "]" = true) ∧
    (pyStartsWith (renderScalar v) "\x7b" = true → containsSub (renderScalar v) "\x7d" = true) := by
  simp only [wfValStr, Bool.and_eq_true, List.all_eq_true, Bool.not_eq_true,
    decide_eq_true_eq, decide_eq_false_iff_not] at hv
  obtain ⟨⟨⟨⟨⟨h1, h2⟩, h3⟩, h4⟩, h5⟩, h6⟩ := hv
  have h5a : pyStartsWith (renderScalar v) "[" = false ∨
      containsSub (renderScalar v) "]" = true := by simpa using h5
  have h6a : pyStartsWith (renderScalar v) "\x7b" = false ∨
      containsSub (renderScalar v) "\x7d" = true := by simpa using h6
  refine ⟨?_, ?_, h3, h4, ?_, ?_⟩
  · intro h
    rw [toList_eq_nil_iff] at h
    simp [h] at h1
  · intro c hc
    have := h2 c hc
    simpa using this
  · intro hp
    rcases h5a with h | h
    · rw [hp] at h; exact absurd h (by simp)
    · exact h
  · intro hp
    rcases h6a with h | h
    · rw [hp] at h; exact absurd h (by simp)
    · exact h

theorem lineBody_no_nl (p : String × YamlValue) (hk : wfKeyStr p.1 = true)
    (hv : wfValStr p.2 = true) : ∀ c ∈ lineBody p, c ≠ '\n' := by
  obtain ⟨_, hknl, _, _, _⟩ := wfKeyStr_spec p.1 hk
  obtain ⟨_, hvnl, _, _, _, _⟩ := wfValStr_spec p.2 hv
  intro c hc
  simp only [lineBody, List.mem_append, List.mem_cons] at hc
  rcases hc with h | h | h | h
  · exact hknl c h
  · subst h; decide
  · subst h; decide
  · exact hvnl c h

theorem lineBody_getLast? (p : String × YamlValue) (hv : wfValStr p.2 = true) :
    (lineBody p).getLast? = (renderScalar p.2).toList.getLast? := by
  obtain ⟨hvne, _, _, _, _, _⟩ := wfValStr_spec p.2 hv
  have : (lineBody p) = (p.1.toList ++ [':', ' ']) ++ (renderScalar p.2).toList := by
    simp [lineBody]
  rw [this, List.getLast?_append_of_ne_nil _ hvne]

theorem lineBody_trim (p : String × YamlValue) (hk : wfKeyStr p.1 = true)
    (hv : wfValStr p.2 = true) : chTrim (lineBody p) = lineBody p := by
  obtain ⟨hkne, _, _, _, hktrim⟩ := wfKeyStr_spec p.1 hk
  obtain ⟨hvne, _, hvtrim, _, _, _⟩ := wfValStr_spec p.2 hv
  apply chTrim_eq_self_of
  · intro c hc
    cases hkl : p.1.toList with
    | nil => exact absurd hkl hkne
    | cons k0 krest =>
      have hhead : (lineBody p).head? = some k0 := by
        simp only [lineBody, hkl, List.cons_append, List.head?_cons]
      have hws : isWs k0 = false := head_not_ws_of_chTrim_self k0 krest (hkl ▸ hktrim)
      rw [hhead] at hc
      cases Option.some.inj hc
      exact hws
  · intro c hc
    rw [lineBody_getLast? p hv] at hc
    exact getLast_not_ws_of_chTrim_self _ hvtrim c hc

theorem chSplitNL_no_nl (l : List Char) (h : ∀ c ∈ l, c ≠ '\n') :
    chSplitNL l = [l] := by
  induction l with
  | nil => rfl
  | cons c t ih =>
    have hc : c ≠ '\n' := h c (by simp)
    have ht := ih (fun z hz => h z (by simp [hz]))
    simp [chSplitNL, ht, hc]

theorem chSplitNL_append_nl (l rest : List Char) (h : ∀ c ∈ l, c ≠ '\n') :
    chSplitNL (l ++ '\n' :: rest) = l :: chSplitNL rest := by
  induction l with
  | nil => simp [chSplitNL]
  | cons c t ih =>
    have hc : c ≠ '\n' := h c (by simp)
    have ht := ih (fun z hz => h z (by simp [hz]))
    simp only [List.cons_append, chSplitNL, hc, if_false, List.append_eq]
    rw [ht]

theorem head?_append_ne_nil {α : Type} (l₁ l₂ : List α) (h : l₁ ≠ []) :
    (l₁ ++ l₂).head? = l₁.head? := by
  cases l₁ with
  | nil => exact absurd rfl h
  | cons a t => rfl

theorem lineBody_ne_nil (p : String × YamlValue) (hk : wfKeyStr p.1 = true) :
    lineBody p ≠ [] := by
  obtain ⟨hkne, _, _, _, _⟩ := wfKeyStr_spec p.1 hk
  cases hkl : p.1.toList with
  | nil => exact absurd hkl hkne
  | cons k0 krest =>
    simp [lineBody, hkl]

theorem lineBody_head_not_ws (p : String × YamlValue) (hk : wfKeyStr p.1 = true) :
    ∀ c, (lineBody p).head? = some c → isWs c = false := by
  obtain ⟨hkne, _, _, _, hktrim⟩ := wfKeyStr_spec p.1 hk
  intro c hc
  cases hkl : p.1.toList with
  | nil => exact absurd hkl hkne
  | cons k0 krest =>
    have hhead : (lineBody p).head? = some k0 := by
      simp only [lineBody, hkl, List.cons_append, List.head?_cons]
    have hws : isWs k0 = false := head_not_ws_of_chTrim_self k0 krest (hkl ▸ hktrim)
    rw [hhead] at hc
    cases Option.some.inj hc
    exact hws

theorem linesFlat_cons (p : String × YamlValue) (tl : Dict) :
    linesFlat (p :: tl) = lineBody p ++ '\n' :: linesFlat tl := by
  simp [linesFlat, lineChars, List.append_assoc]

theorem chFind_header_terminator (d : Dict)
    (hwf : ∀ p ∈ d, wfKeyStr p.1 = true ∧ wfValStr p.2 = true) (rest : List Char) :
    chFind ('\n' :: (linesFlat d ++ '-' :: '-' :: '-' :: rest)) ['\n', '-', '-', '-'] =
      some (linesFlat d).length := by
  induction d generalizing rest with
  | nil =>
    simp [linesFlat, chFind, List.isPrefixOf]
  | cons p tl ih =>
    obtain ⟨hk, hv⟩ := hwf p (by simp)
    obtain ⟨hkne, hknl, _, hkdash, hktrim⟩ := wfKeyStr_spec p.1 hk
    cases hkl : p.1.toList with
    | nil => exact absurd hkl hkne
    | cons k0 krest =>
      have hk0 : k0 ≠ '-' := by
        intro h
        apply hkdash
        rw [hkl, h]
        rfl
      have e0 : '\n' :: (linesFlat (p :: tl) ++ '-' :: '-' :: '-' :: rest) =
          '\n' :: (lineBody p ++ ('\n' :: (linesFlat tl ++ '-' :: '-' :: '-' :: rest))) := by
        rw [linesFlat_cons]
        simp [List.append_assoc]
      rw [e0]
      have hkld : p.1.data = k0 :: krest := hkl
      have hshape : lineBody p ++ ('\n' :: (linesFlat tl ++ '-' :: '-' :: '-' :: rest)) =
          k0 :: (krest ++ (':' :: ' ' :: (renderScalar p.2).toList) ++
            ('\n' :: (linesFlat tl ++ '-' :: '-' :: '-' :: rest))) := by
        simp [lineBody, hkl, hkld, List.append_assoc]
      have hpre : (['\n', '-', '-', '-'] : List Char).isPrefixOf
          ('\n' :: (lineBody p ++ ('\n' :: (linesFlat tl ++ '-' :: '-' :: '-' :: rest)))) =
            false := by
        rw [hshape]
        have hbe : ('-' == k0) = false := beq_eq_false_iff_ne.mpr (Ne.symm hk0)
        simp [List.isPrefixOf, hbe]
      rw [show chFind
          ('\n' :: (lineBody p ++ ('\n' :: (linesFlat tl ++ '-' :: '-' :: '-' :: rest))))
          ['\n', '-', '-', '-'] =
        (chFind (lineBody p ++ ('\n' :: (linesFlat tl ++ '-' :: '-' :: '-' :: rest)))
          ['\n', '-', '-', '-']).map (· + 1) by simp [chFind, hpre]]
      rw [chFind_skip (lineBody p) ('\n' :: (linesFlat tl ++ '-' :: '-' :: '-' :: rest))
        ['\n', '-', '-', '-'] '\n' ['-', '-', '-'] rfl (lineBody_no_nl p hk hv)]
      rw [ih (fun q hq => hwf q (by simp [hq])) rest]
      rw [linesFlat_cons]
      simp only [Option.map_some', List.length_append, List.length_cons, Option.some.injEq]
      omega

theorem trim_split_flat (d : Dict) (hne : d ≠ [])
    (hwf : ∀ p ∈ d, wfKeyStr p.1 = true ∧ wfValStr p.2 = true) :
    chTrim ((linesFlat d).dropLast) = (linesFlat d).dropLast ∧
    chSplitNL ((linesFlat d).dropLast) = linesBodies d := by
  induction d with
  | nil => exact absurd rfl hne
  | cons p tl ih =>
    obtain ⟨hk, hv⟩ := hwf p (by simp)
    cases tl with
    | nil =>
      have hflat : linesFlat [p] = lineBody p ++ ['\n'] := by
        simp [linesFlat, lineChars]
      rw [hflat, List.dropLast_concat]
      refine ⟨lineBody_trim p hk hv, ?_⟩
      rw [chSplitNL_no_nl _ (lineBody_no_nl p hk hv)]
      simp [linesBodies]
    | cons q tl2 =>
      obtain ⟨hkq, hvq⟩ := hwf q (by simp)
      have ihr := ih (by simp) (fun z hz => hwf z (by simp [hz]))
      have hfq : linesFlat (q :: tl2) = lineBody q ++ '\n' :: linesFlat tl2 :=
        linesFlat_cons q tl2
      have hfne : linesFlat (q :: tl2) ≠ [] := by
        rw [hfq]
        exact List.append_ne_nil_of_right_ne_nil _ (by simp)
      have hdrop : (linesFlat (p :: q :: tl2)).dropLast =
          lineBody p ++ '\n' :: (linesFlat (q :: tl2)).dropLast := by
        have h1 : linesFlat (p :: q :: tl2) =
            (lineBody p ++ ['\n']) ++ linesFlat (q :: tl2) := by
          rw [linesFlat_cons]
          simp [List.append_assoc]
        rw [h1, List.dropLast_append_of_ne_nil _ hfne]
        simp [List.append_assoc]
      have hXlen : (linesFlat (q :: tl2)).length ≥ 2 := by
        rw [hfq]
        have := List.length_pos.mpr (lineBody_ne_nil q hkq)
        simp only [List.length_append, List.length_cons]
        omega
      have hXdrop_ne : (linesFlat (q :: tl2)).dropLast ≠ [] := by
        intro h
        have := List.length_dropLast (linesFlat (q :: tl2))
        rw [h] at this
        simp at this
        omega
      constructor
      · rw [hdrop]
        apply chTrim_eq_self_of
        · intro c hc
          rw [head?_append_ne_nil _ _ (lineBody_ne_nil p hk)] at hc
          exact lineBody_head_not_ws p hk c hc
        · intro c hc
          rw [List.getLast?_append_of_ne_nil _ (by simp)] at hc
          have hc2 : ((linesFlat (q :: tl2)).dropLast).getLast? = some c := by
            have : ('\n' :: (linesFlat (q :: tl2)).dropLast) =
                ['\n'] ++ (linesFlat (q :: tl2)).dropLast := rfl
            rw [this, List.getLast?_append_of_ne_nil _ hXdrop_ne] at hc
            exact hc
          exact getLast_not_ws_of_chTrim_self _ ihr.1 c hc2
      · rw [hdrop, chSplitNL_append_nl _ _ (lineBody_no_nl p hk hv), ihr.2]
        simp [linesBodies]

theorem mk_toList (s : String) : String.mk s.toList = s := rfl

theorem toList_mk (l : List Char) : (String.mk l).toList = l := rfl

theorem string_ne_empty_of_toList_ne_nil (s : String) (h : s.toList ≠ []) : ¬(s = "") := by
  intro he
  subst he
  exact h rfl

theorem yamlLoadLine_render (k : String) (v : YamlValue)
    (hk : wfKeyStr k = true) (hv : wfValStr v = true) :
    yamlLoadLine (lineBody (k, v)) = .ok (some (k, v)) := by
  obtain ⟨hkne, hknl, hkcol, hkdash, hktrim⟩ := wfKeyStr_spec k hk
  obtain ⟨hvne, hvnl, hvtrim, hvparse, hvflow1, hvflow2⟩ := wfValStr_spec v hv
  have htrim : chTrim (lineBody (k, v)) = lineBody (k, v) := lineBody_trim (k, v) hk hv
  have hne : lineBody (k, v) ≠ [] := lineBody_ne_nil (k, v) hk
  have hfind : chFind (lineBody (k, v)) [':', ' '] = some k.toList.length := by
    have hsh : lineBody (k, v) = k.toList ++ (':' :: ' ' :: (renderScalar v).toList) := rfl
    rw [hsh, chFind_skip k.toList (':' :: ' ' :: (renderScalar v).toList) [':', ' ']
      ':' [' '] rfl hkcol]
    simp [chFind, List.isPrefixOf]
  have htake : (lineBody (k, v)).take k.toList.length = k.toList := by
    have hsh : lineBody (k, v) = k.toList ++ (':' :: ' ' :: (renderScalar v).toList) := rfl
    rw [hsh, List.take_left]
  have hdrop : (lineBody (k, v)).drop (k.toList.length + 2) = (renderScalar v).toList := by
    have hsh : lineBody (k, v) = (k.toList ++ [':', ' ']) ++ (renderScalar v).toList := by
      simp [lineBody, List.append_assoc]
    have hlen : (k.toList ++ [':', ' ']).length = k.toList.length + 2 := by simp
    rw [hsh, ← hlen, List.drop_left]
  have hkemp : ¬(k = "") := string_ne_empty_of_toList_ne_nil k hkne
  have hflow1 : (pyStartsWith (renderScalar v) "[" && !(containsSub (renderScalar v) "]")) =
      false := by
    cases hsw : pyStartsWith (renderScalar v) "[" with
    | false => simp
    | true => simp [hvflow1 hsw]
  have hflow2 : (pyStartsWith (renderScalar v) "\x7b" && !(containsSub (renderScalar v) "\x7d")) =
      false := by
    cases hsw : pyStartsWith (renderScalar v) "\x7b" with
    | false => simp
    | true => simp [hvflow2 hsw]
  simp only [yamlLoadLine, htrim, hne, if_neg, hfind, htake, hktrim, mk_toList, hdrop,
    hvtrim, hkemp, hflow1, hflow2, Bool.false_eq_true, if_false, hvparse]

theorem dictInsert_append_of_not_mem (acc : Dict) (k : String) (v : YamlValue)
    (h : ∀ e ∈ acc, e.1 ≠ k) : dictInsert acc k v = acc ++ [(k, v)] := by
  induction acc with
  | nil => rfl
  | cons e t ih =>
    have he : e.1 ≠ k := h e (by simp)
    simp only [dictInsert, he, if_false, List.cons_append]
    rw [ih (fun z hz => h z (by simp [hz]))]

theorem yamlLoadLines_render (d : Dict) :
    ∀ (acc : Dict),
    (∀ p ∈ d, wfKeyStr p.1 = true ∧ wfValStr p.2 = true) →
    (d.map (·.1)).Nodup →
    (∀ p ∈ d, ∀ e ∈ acc, e.1 ≠ p.1) →
    yamlLoadLines acc (linesBodies d) = .ok (acc ++ d) := by
  induction d with
  | nil =>
    intro acc _ _ _
    simp [linesBodies, yamlLoadLines]
  | cons p tl ih =>
    intro acc hwf hnodup hdisj
    obtain ⟨hk, hv⟩ := hwf p (by simp)
    have hline : yamlLoadLine (lineBody p) = .ok (some (p.1, p.2)) :=
      yamlLoadLine_render p.1 p.2 hk hv
    simp only [linesBodies, List.map_cons, yamlLoadLines, hline]
    rw [dictInsert_append_of_not_mem acc p.1 p.2 (fun e he => hdisj p (by simp) e he)]
    have hpn : p.1 ∉ tl.map (·.1) := (List.nodup_cons.mp hnodup).1
    have hrec := ih (acc ++ [(p.1, p.2)]) (fun z hz => hwf z (by simp [hz]))
      (List.nodup_cons.mp hnodup).2 ?_
    · rw [show (linesBodies tl) = tl.map lineBody from rfl] at hrec
      rw [hrec]
      simp [List.append_assoc]
    · intro q hq e he
      rcases List.mem_append.mp he with h1 | h1
      · exact hdisj q (by simp [hq]) e h1
      · rw [List.mem_singleton] at h1
        subst h1
        intro hcon
        exact hpn (hcon ▸ List.mem_map_of_mem (·.1) hq)

theorem wfDict_spec (d : Dict) (hd : wfDict d = true) :
    d ≠ [] ∧ (d.map (·.1)).Nodup ∧
    ∀ p ∈ d, wfKeyStr p.1 = true ∧ wfValStr p.2 = true := by
  simp only [wfDict, Bool.and_eq_true, List.all_eq_true, Bool.not_eq_true,
    decide_eq_true_eq, decide_eq_false_iff_not] at hd
  obtain ⟨⟨h1, h2⟩, h3⟩ := hd
  refine ⟨by simpa using h1, h2, ?_⟩
  intro p hp
  have := h3 p hp
  simpa [Bool.and_eq_true] using this

theorem yamlLoad_render (d : Dict) (hne : d ≠ [])
    (hwf : ∀ p ∈ d, wfKeyStr p.1 = true ∧ wfValStr p.2 = true)
    (hnodup : (d.map (·.1)).Nodup) :
    yamlLoad (String.mk ((linesFlat d).dropLast)) = .ok d := by
  unfold yamlLoad
  rw [toList_mk, (trim_split_flat d hne hwf).2]
  have := yamlLoadLines_render d [] hwf hnodup (by simp)
  simpa using this

theorem toList_yamlDumpLine (p : String × YamlValue) :
    (yamlDumpLine p).toList = lineChars p := by
  have h1 : ∀ (s t : String), (s ++ t).toList = s.toList ++ t.toList := by
    intro s t
    rfl
  simp [yamlDumpLine, lineChars, lineBody, h1, List.append_assoc]

theorem toList_stringJoin (L : List String) :
    (String.join L).toList = (L.map String.toList).flatten := by
  have haux : ∀ (M : List String) (acc : String),
      (M.foldl (fun r s => r ++ s) acc).toList = acc.toList ++ (M.map String.toList).flatten := by
    intro M
    induction M with
    | nil => intro acc; simp
    | cons s M ih =>
      intro acc
      simp only [List.foldl_cons, List.map_cons, List.flatten_cons]
      rw [ih (acc ++ s)]
      have : (acc ++ s).toList = acc.toList ++ s.toList := rfl
      rw [this, List.append_assoc]
  have h2 : String.join L = L.foldl (fun r s => r ++ s) "" := rfl
  rw [h2, haux L ""]
  rfl

theorem toList_yamlDump (d : Dict) (hne : d ≠ []) :
    (yamlDump d).toList = linesFlat d := by
  have h1 : yamlDump d = String.join (d.map yamlDumpLine) := by
    simp [yamlDump, hne]
  rw [h1, toList_stringJoin, linesFlat]
  congr 1
  rw [List.map_map]
  exact List.map_congr_left (fun p _ => toList_yamlDumpLine p)

/-- The round-trip property of the modelled Ledger Codec: a serialized
well-formed header and body re-parse to themselves. -/
theorem parse_renderContent (d : Dict) (b : String) (hd : wfDict d = true)
    (hb : wfBody b = true) :
    FrontmatterParser.parse (renderContent d b) = .ok (d, b) := by
  obtain ⟨hne, hnodup, hwf⟩ := wfDict_spec d hd
  have hbspec : chTrim b.toList = b.toList ∧ ¬(b = "") := by
    simpa [wfBody, Bool.and_eq_true] using hb
  have hbtrim := hbspec.1
  have hbne : b.toList ≠ [] := fun h => hbspec.2 ((toList_eq_nil_iff b).mp h)
  have hcontent : (renderContent d b).toList =
      '-' :: '-' :: '-' :: '\n' ::
        (linesFlat d ++ '-' :: '-' :: '-' :: '\n' :: '\n' :: b.toList) := by
    have h1 : ∀ (s t : String), (s ++ t).toList = s.toList ++ t.toList := fun s t => rfl
    simp only [renderContent, h1, toList_yamlDump d hne]
    have h2 : ("---\n" : String).toList = ['-', '-', '-', '\n'] := rfl
    have h3 : ("---\n\n" : String).toList = ['-', '-', '-', '\n', '\n'] := rfl
    rw [h2, h3]
    simp only [List.append_assoc, List.cons_append, List.nil_append]
  have hflat_ne : linesFlat d ≠ [] := by
    cases d with
    | nil => exact absurd rfl hne
    | cons p tl =>
      rw [linesFlat_cons]
      exact List.append_ne_nil_of_right_ne_nil _ (by simp)
  have hflat_pos : 0 < (linesFlat d).length := List.length_pos.mpr hflat_ne
  -- the stripped content is the content itself
  have hstrip : pyStrip (renderContent d b) = renderContent d b := by
    have hshape2 : (renderContent d b).toList =
        (['-', '-', '-', '\n'] ++ (linesFlat d ++ ['-', '-', '-', '\n', '\n'])) ++ b.toList := by
      rw [hcontent]
      simp [List.append_assoc]
    have htr : chTrim ((renderContent d b).toList) = (renderContent d b).toList := by
      apply chTrim_eq_self_of
      · intro c hc
        rw [hcontent] at hc
        cases Option.some.inj hc
        decide
      · intro c hc
        rw [hshape2, List.getLast?_append_of_ne_nil _ hbne] at hc
        exact getLast_not_ws_of_chTrim_self b.toList hbtrim c hc
    unfold pyStrip
    rw [htr, mk_toList]
  have hsw : pyStartsWith (renderContent d b) "---" = true := by
    unfold pyStartsWith
    rw [hcontent]
    rfl
  have hfind : pyFindFrom (renderContent d b) "\n---" 3 = some ((linesFlat d).length + 3) := by
    unfold pyFindFrom
    have hdrop3 : (renderContent d b).toList.drop 3 =
        '\n' :: (linesFlat d ++ '-' :: '-' :: '-' :: ('\n' :: '\n' :: b.toList)) := by
      rw [hcontent]
      rfl
    have hpat : ("\n---" : String).toList = ['\n', '-', '-', '-'] := rfl
    rw [hdrop3, hpat, chFind_header_terminator d hwf]
    rfl
  obtain ⟨m, hm⟩ : ∃ m, (linesFlat d).length = m + 1 :=
    ⟨(linesFlat d).length - 1, by omega⟩
  have htk : ('\n' :: (linesFlat d ++ '-' :: '-' :: '-' :: '\n' :: '\n' :: b.toList)).take
      (linesFlat d).length = '\n' :: (linesFlat d).dropLast := by
    rw [hm, List.take_succ_cons]
    congr 1
    rw [List.take_append_of_le_length (by omega)]
    rw [List.dropLast_eq_take, hm]
    simp
  have hslice : pySlice (renderContent d b) 3 ((linesFlat d).length + 3) =
      String.mk ('\n' :: (linesFlat d).dropLast) := by
    unfold pySlice
    rw [hcontent]
    have hd3 : ('-' :: '-' :: '-' :: '\n' ::
        (linesFlat d ++ '-' :: '-' :: '-' :: '\n' :: '\n' :: b.toList)).drop 3 =
        '\n' :: (linesFlat d ++ '-' :: '-' :: '-' :: '\n' :: '\n' :: b.toList) := rfl
    have harith : (linesFlat d).length + 3 - 3 = (linesFlat d).length := by omega
    rw [hd3, harith, htk]
  have hfm : pyStrip (pySlice (renderContent d b) 3 ((linesFlat d).length + 3)) =
      String.mk ((linesFlat d).dropLast) := by
    rw [hslice]
    unfold pyStrip
    rw [toList_mk, chTrim_cons_ws '\n' _ (by decide), (trim_split_flat d hne hwf).1]
  have hload : yamlLoad (String.mk ((linesFlat d).dropLast)) = .ok d :=
    yamlLoad_render d hne hwf hnodup
  have hbody : pyStrip (pyDropChars (renderContent d b) ((linesFlat d).length + 3 + 4)) = b := by
    have hsh : (renderContent d b).toList =
        (['-', '-', '-', '\n'] ++ linesFlat d ++ ['-', '-', '-']) ++
          ('\n' :: '\n' :: b.toList) := by
      rw [hcontent]
      simp [List.append_assoc]
    have hlen : (['-', '-', '-', '\n'] ++ linesFlat d ++ ['-', '-', '-']).length =
        (linesFlat d).length + 3 + 4 := by
      simp only [List.length_append, List.length_cons, List.length_nil]
      omega
    unfold pyDropChars
    rw [hsh, ← hlen, List.drop_left]
    unfold pyStrip
    rw [toList_mk, chTrim_cons_ws '\n' _ (by decide), chTrim_cons_ws '\n' _ (by decide),
      hbtrim, mk_toList]
  simp only [FrontmatterParser.parse, hstrip, hsw, Bool.not_true, Bool.false_eq_true,
    if_false, hfind, hfm, hload, hbody]

theorem keys_dictInsert (d : Dict) (k : String) (v : YamlValue) :
    (dictInsert d k v).map (·.1) =
      if k ∈ d.map (·.1) then d.map (·.1) else d.map (·.1) ++ [k] := by
  induction d with
  | nil => simp [dictInsert]
  | cons e d ih =>
    by_cases h : e.1 = k
    · simp [dictInsert, h]
    · simp only [dictInsert, h, if_false, List.map_cons, ih]
      by_cases hk : k ∈ d.map (·.1)
      · simp [hk, h]
      · simp [hk, h, Ne.symm h]

theorem nodup_keys_dictInsert (d : Dict) (k : String) (v : YamlValue)
    (h : (d.map (·.1)).Nodup) : ((dictInsert d k v).map (·.1)).Nodup := by
  rw [keys_dictInsert]
  by_cases hk : k ∈ d.map (·.1)
  · simpa [hk] using h
  · simp [hk, List.nodup_append, h]

theorem mem_dictInsert (d : Dict) (k : String) (v : YamlValue) (p : String × YamlValue)
    (hp : p ∈ dictInsert d k v) : p = (k, v) ∨ p ∈ d := by
  induction d with
  | nil => simpa [dictInsert] using hp
  | cons e d ih =>
    by_cases h : e.1 = k
    · simp only [dictInsert, h, if_true, List.mem_cons] at hp
      rcases hp with h1 | h1
      · exact Or.inl h1
      · exact Or.inr (by simp [h1])
    · simp only [dictInsert, h, if_false, List.mem_cons] at hp
      rcases hp with h1 | h1
      · exact Or.inr (by simp [h1])
      · rcases ih h1 with h2 | h2
        · exact Or.inl h2
        · exact Or.inr (by simp [h2])

theorem dictInsert_ne_nil (d : Dict) (k : String) (v : YamlValue) :
    dictInsert d k v ≠ [] := by
  cases d with
  | nil => simp [dictInsert]
  | cons e d =>
    by_cases h : e.1 = k <;> simp [dictInsert, h]

theorem wfDict_dictInsert (d : Dict) (k : String) (v : YamlValue)
    (hd : wfDict d = true) (hk : wfKeyStr k = true) (hv : wfValStr v = true) :
    wfDict (dictInsert d k v) = true := by
  obtain ⟨_, hnodup, hwf⟩ := wfDict_spec d hd
  simp only [wfDict, Bool.and_eq_true, List.all_eq_true]
  refine ⟨⟨by simpa using dictInsert_ne_nil d k v, ?_⟩, ?_⟩
  · simpa using nodup_keys_dictInsert d k v hnodup
  · intro p hp
    rcases mem_dictInsert d k v p hp with h1 | h1
    · subst h1
      simp [hk, hv]
    · have := hwf p h1
      simp [this.1, this.2]

theorem runFsOps_single_write (fs : FS) (p c : String) :
    runFsOps fs [.write p c] = fsWrite fs p c := rfl

theorem FrontmatterWriter.write_render (fs : FS) (filepath : String) (d : Dict) (b : String)
    (hread : fsRead fs filepath = some (renderContent d b))
    (hd : wfDict d = true) (hb : wfBody b = true) (k : String) (v : YamlValue) :
    FrontmatterWriter.write fs filepath [(k, v)] =
      .ok (fsWrite fs filepath (renderContent (dictInsert d k v) b)) := by
  unfold FrontmatterWriter.write FrontmatterWriter.write_ops FrontmatterWriter.new_content
  simp only [hread, parse_renderContent d b hd hb, dictMerge_single, runFsOps_single_write]

theorem mark_as_uploaded_header_writes_render (fs : FS) (filepath source_id : String)
    (d : Dict) (b : String)
    (hread : fsRead fs filepath = some (renderContent d b))
    (hd : wfDict d = true) (hb : wfBody b = true) :
    StateManager.mark_as_uploaded_header_writes fs filepath source_id =
      .ok (fsWrite (fsWrite fs filepath
             (renderContent (dictInsert d "status" (.str "uploaded")) b))
           filepath
           (renderContent
             (dictInsert (dictInsert d "status" (.str "uploaded"))
               "source_id" (.str source_id)) b)) := by
  have hks : wfKeyStr "status" = true := by decide
  have hvs : wfValStr (.str "uploaded") = true := by decide
  have hki : wfKeyStr "source_id" = true := by decide
  have hd1 : wfDict (dictInsert d "status" (.str "uploaded")) = true :=
    wfDict_dictInsert d "status" (.str "uploaded") hd hks hvs
  have hw1 : FrontmatterWriter.write_status fs filepath .uploaded =
      .ok (fsWrite fs filepath
        (renderContent (dictInsert d "status" (.str "uploaded")) b)) := by
    unfold FrontmatterWriter.write_status
    exact FrontmatterWriter.write_render fs filepath d b hread hd hb "status"
      (.str "uploaded")
  have hread1 : fsRead (fsWrite fs filepath
      (renderContent (dictInsert d "status" (.str "uploaded")) b)) filepath =
      some (renderContent (dictInsert d "status" (.str "uploaded")) b) :=
    fsRead_fsWrite_self fs filepath _
  have hw2 := FrontmatterWriter.write_render _ filepath
    (dictInsert d "status" (.str "uploaded")) b hread1 hd1 hb "source_id"
    (.str source_id)
  unfold StateManager.mark_as_uploaded_header_writes
  rw [hw1]
  unfold FrontmatterWriter.write_source_id
  exact hw2

/-- C4: in `StateManager.mark_as_uploaded` the header writes (status=uploaded,
then source_id) complete before the relocation phase is attempted: the
resulting header already reads `uploaded` with the source id recorded, the
whole operation is the relocation applied to the post-write state, and
`FileMover.move_file` overwrites an occupied destination path. -/
theorem C4_header_writes_precede_move (fs : FS)
    (filepath source_id intermediate_dir nowYM : String) (d : Dict) (b : String)
    (hread : fsRead fs filepath = some (renderContent d b))
    (hd : wfDict d = true) (hb : wfBody b = true)
    (hsid : wfValStr (.str source_id) = true) :
    ∃ fs2,
      StateManager.mark_as_uploaded_header_writes fs filepath source_id = .ok fs2 ∧
      FrontmatterReader.read_status fs2 filepath = some .uploaded ∧
      FrontmatterReader.read_source_id fs2 filepath = some (.str source_id) ∧
      StateManager.mark_as_uploaded fs filepath source_id intermediate_dir none nowYM =
        StateManager.mark_as_uploaded_move fs2 filepath intermediate_dir nowYM ∧
      (∀ (fsx : FS) (src tdir c old : String), fsRead fsx src = some c →
        fsRead fsx (pathJoin tdir (pathName src)) = some old →
        ¬(pathJoin tdir (pathName src) = src) →
        FileMover.move_file fsx src tdir =
          .ok (fsWrite (fsRemove fsx src) (pathJoin tdir (pathName src)) c,
               pathJoin tdir (pathName src)) ∧
        fsRead (fsWrite (fsRemove fsx src) (pathJoin tdir (pathName src)) c)
            (pathJoin tdir (pathName src)) = some c) := by
  have hks : wfKeyStr "status" = true := by decide
  have hvs : wfValStr (.str "uploaded") = true := by decide
  have hki : wfKeyStr "source_id" = true := by decide
  have hd1 : wfDict (dictInsert d "status" (.str "uploaded")) = true :=
    wfDict_dictInsert d "status" (.str "uploaded") hd hks hvs
  have hd2 : wfDict (dictInsert (dictInsert d "status" (.str "uploaded"))
      "source_id" (.str source_id)) = true :=
    wfDict_dictInsert _ "source_id" (.str source_id) hd1 hki hsid
  have hhw := mark_as_uploaded_header_writes_render fs filepath source_id d b
    hread hd hb
  refine ⟨_, hhw, ?_, ?_, ?_, ?_⟩
  · have hr2 : fsRead (fsWrite (fsWrite fs filepath
        (renderContent (dictInsert d "status" (.str "uploaded")) b)) filepath
        (renderContent (dictInsert (dictInsert d "status" (.str "uploaded"))
          "source_id" (.str source_id)) b)) filepath =
        some (renderContent (dictInsert (dictInsert d "status" (.str "uploaded"))
          "source_id" (.str source_id)) b) := fsRead_fsWrite_self _ filepath _
    unfold FrontmatterReader.read_status FrontmatterReader.read
    simp only [hr2, parse_renderContent _ b hd2 hb,
      dictGet_dictInsert_ne _ "source_id" (.str source_id) "status" (by decide),
      dictGet_dictInsert_self]
    simp [yamlTruthy, pipelineStatusOf]
  · have hr2 : fsRead (fsWrite (fsWrite fs filepath
        (renderContent (dictInsert d "status" (.str "uploaded")) b)) filepath
        (renderContent (dictInsert (dictInsert d "status" (.str "uploaded"))
          "source_id" (.str source_id)) b)) filepath =
        some (renderContent (dictInsert (dictInsert d "status" (.str "uploaded"))
          "source_id" (.str source_id)) b) := fsRead_fsWrite_self _ filepath _
    unfold FrontmatterReader.read_source_id FrontmatterReader.read
    simp only [hr2, parse_renderContent _ b hd2 hb, dictGet_dictInsert_self]
  · unfold StateManager.mark_as_uploaded
    simp only [hhw, StateManager.sync_original]
  · intro fsx src tdir c old hsrc _ hne
    constructor
    · unfold FileMover.move_file
      rw [hsrc]
      simp [hne]
    · exact fsRead_fsWrite_self _ _ _

/-- Concrete instantiation of the C4 theorem on a one-file store holding a
rendered `channel` header. -/
theorem C4_header_writes_precede_move_witness :
    ∃ fs2,
      StateManager.mark_as_uploaded_header_writes
        [("data/pending/abc_analyzed.md",
          renderContent [("channel", .str "chan")] "body")]
        "data/pending/abc_analyzed.md" "sid-123" = .ok fs2 ∧
      FrontmatterReader.read_status fs2 "data/pending/abc_analyzed.md" = some .uploaded ∧
      FrontmatterReader.read_source_id fs2 "data/pending/abc_analyzed.md" =
        some (.str "sid-123") ∧
      StateManager.mark_as_uploaded
        [("data/pending/abc_analyzed.md",
          renderContent [("channel", .str "chan")] "body")]
        "data/pending/abc_analyzed.md" "sid-123" "data" none "2024-06" =
        StateManager.mark_as_uploaded_move fs2 "data/pending/abc_analyzed.md" "data"
          "2024-06" ∧
      (∀ (fsx : FS) (src tdir c old : String), fsRead fsx src = some c →
        fsRead fsx (pathJoin tdir (pathName src)) = some old →
        ¬(pathJoin tdir (pathName src) = src) →
        FileMover.move_file fsx src tdir =
          .ok (fsWrite (fsRemove fsx src) (pathJoin tdir (pathName src)) c,
               pathJoin tdir (pathName src)) ∧
        fsRead (fsWrite (fsRemove fsx src) (pathJoin tdir (pathName src)) c)
            (pathJoin tdir (pathName src)) = some c) :=
  C4_header_writes_precede_move _ "data/pending/abc_analyzed.md" "sid-123" "data"
    "2024-06" [("channel", .str "chan")] "body" (by rfl) (by decide) (by decide)
    (by decide)

end KnowledgePipeline
